import Mathlib

set_option maxHeartbeats 1000000
set_option maxRecDepth 100000

deriving instance DecidableEq for Except

namespace GuitarHelio

/-!
Shallow embedding of the GuitarHelio signal-processing core
(`src/third_party/tempocnn_core/src/TempoCnn.cpp` and
`src/third_party/neuralnote_core/src/*`).

IEEE `float`/`double` values are modelled as exact rationals (`ℚ`); the
arithmetic the verified claims depend on (comparisons, clamping, decimal
rounding, copying) is exact in the source as well wherever the claims use it.
Machine integers are modelled as `ℕ`/`ℤ` (no index in the modelled code can
overflow or go negative where `ℕ` is used).
-/

/-! ## TempoCnn.cpp: constants (lines 16-35) -/

def kTempoClasses : ℕ := 256

def kMelBands : ℕ := 40

def kNfft : ℕ := 1024

def kStftHopLength : ℕ := 512

def kWindowFrames : ℕ := 256

def kGlobalHopFrames : ℕ := 128

def kLocalHopFrames : ℕ := 32

def kLocalSmoothingWindow : ℤ := 5

def kTempoMinBpm : ℚ := 20

def kTempoMaxBpm : ℚ := 300

def kLocalTempoMinTimeDelta : ℚ := 7/10

def kLocalTempoMinBpmDelta : ℚ := 3/4

def kFeatureFrameSeconds : ℚ := 512 / 11025

/-! ## TempoCnn.cpp: small helpers (lines 47-57) -/

/-- `clampDouble` (TempoCnn.cpp line 47): `std::max(minValue, std::min(maxValue, value))`. -/
def clampDouble (value minValue maxValue : ℚ) : ℚ :=
  max minValue (min maxValue value)

/-- `std::abs` / `std::fabs` on doubles. -/
def fabsQ (x : ℚ) : ℚ :=
  if x < 0 then -x else x

lemma fabsQ_eq_abs (x : ℚ) : fabsQ x = |x| := by
  unfold fabsQ
  split
  · rename_i h
    rw [abs_of_neg h]
  · rename_i h
    rw [abs_of_nonneg (not_lt.mp h)]

/-- `std::round`: rounds half away from zero. -/
def roundHalfAwayFromZero (x : ℚ) : ℤ :=
  if x < 0 then -⌊-x + 1/2⌋ else ⌊x + 1/2⌋

/-- `roundToDecimals` (TempoCnn.cpp line 52). -/
def roundToDecimals (value : ℚ) (decimals : ℤ) : ℚ :=
  let safeDecimals := max 0 (min 9 decimals)
  let scale : ℚ := (10 : ℚ) ^ safeDecimals.toNat
  ((roundHalfAwayFromZero (value * scale) : ℤ) : ℚ) / scale

/-- `TempoPoint` (TempoCnn.h): `{timeSeconds, bpm}`, both doubles. -/
structure TempoPoint where
  timeSeconds : ℚ
  bpm : ℚ
  deriving DecidableEq

/-! ## TempoCnn.cpp: local-tempo smoothing and compression (lines 329-483) -/

/-- `argmax` (TempoCnn.cpp line 329): first index of the maximum, scanning left
to right with a strictly-greater update.  The C++ loop starts at index 1 with
`bestIndex = 0`; folding from index 0 is identical because the first comparison
`values[0] > values[0]` is false. -/
def argmax (values : List ℚ) : ℕ :=
  (List.range values.length).foldl
    (fun best index => if values.getD index 0 > values.getD best 0 then index else best) 0

/-- `interpolateArgmax` (TempoCnn.cpp lines 347-365). -/
def interpolateArgmax (values : List ℚ) (index : ℤ) : ℚ :=
  if index ≤ 0 ∨ (values.length : ℤ) - 1 ≤ index then
    (index : ℚ)
  else
    let left := values.getD (index - 1).toNat 0
    let center := values.getD index.toNat 0
    let right := values.getD (index + 1).toNat 0
    let denominator := left - 2 * center + right
    if fabsQ denominator < 1 / 10 ^ 12 then
      (index : ℚ)
    else
      let delta := (1/2) * (left - right) / denominator
      let safeDelta := clampDouble delta (-1) 1
      (index : ℚ) + safeDelta

/-- `classIndexToBpm` (TempoCnn.cpp line 367). -/
def classIndexToBpm (index : ℚ) : ℚ :=
  clampDouble (index + 30) kTempoMinBpm kTempoMaxBpm

/-- `movingAverageSame` (TempoCnn.cpp lines 372-400).  The inner C++ loop runs
`offset` from `-halfWindow` to `halfWindow` and skips out-of-range sample
indices; here `offset = (j : ℤ) - halfWindow` for `j < 2*halfWindow + 1`.  The
divisor is always the (odd, clamped) `safeWindow`, never the in-range count. -/
def safeOddWindow (windowSize : ℤ) : ℤ :=
  if (max 1 windowSize) % 2 = 0 then max 1 windowSize + 1 else max 1 windowSize

def movingAverageSame (values : List ℚ) (windowSize : ℤ) : List ℚ :=
  if values = [] then []
  else
    (List.range values.length).map (fun (index : ℕ) =>
      ((List.range (2 * (safeOddWindow windowSize / 2).toNat + 1)).foldl
        (fun (acc : ℚ) (j : ℕ) =>
          if (index : ℤ) + (j : ℤ) - safeOddWindow windowSize / 2 < 0 ∨
              (values.length : ℤ) ≤ (index : ℤ) + (j : ℤ) - safeOddWindow windowSize / 2 then
            acc
          else
            acc + values.getD ((index : ℤ) + (j : ℤ) - safeOddWindow windowSize / 2).toNat 0)
        0) / (safeOddWindow windowSize : ℚ))

/-- The raw (pre-compression) tempo points built by `compressTempoPoints`
(TempoCnn.cpp lines 404-413): index `i` becomes time `round6(i*hopSeconds)` and
bpm `round6(clamp(bpmSeries[i], 20, 300))`. -/
def rawTempoPoints (bpmSeries : List ℚ) (hopSeconds : ℚ) : List TempoPoint :=
  (List.range bpmSeries.length).map (fun (index : ℕ) =>
    { timeSeconds := roundToDecimals ((index : ℚ) * hopSeconds) 6
      bpm := roundToDecimals (clampDouble (bpmSeries.getD index 0) kTempoMinBpm kTempoMaxBpm) 6 })

/-- The compression loop of `compressTempoPoints` (TempoCnn.cpp lines 423-435):
`last` is `compressed.back()`; a point is skipped exactly when both deltas are
below the thresholds. -/
def compressAux (last : TempoPoint) : List TempoPoint → List TempoPoint
  | [] => []
  | current :: rest =>
    if current.timeSeconds - last.timeSeconds < kLocalTempoMinTimeDelta ∧
        fabsQ (current.bpm - last.bpm) < kLocalTempoMinBpmDelta then
      compressAux last rest
    else
      current :: compressAux current rest

/-- `compressTempoPoints` (TempoCnn.cpp lines 402-438). -/
def compressTempoPoints (bpmSeries : List ℚ) (hopSeconds : ℚ) : List TempoPoint :=
  match rawTempoPoints bpmSeries hopSeconds with
  | [] => []
  | first :: rest => first :: compressAux first rest

/-- Per-row argmax to BPM, `predictionRowsToBpmSeries` (TempoCnn.cpp lines
461-483).  The flat `[numWindows × 256]` prediction buffer is modelled row by
row; the per-row scan is exactly `argmax`. -/
def predictionRowsToBpmSeries (predictionRows : List (List ℚ)) : List ℚ :=
  predictionRows.map (fun row => classIndexToBpm ((argmax row : ℕ) : ℚ))

/-- The local-tempo branch of `TempoCnn::estimate` (TempoCnn.cpp lines
585-601), starting from the classifier's per-window posterior rows: per-window
argmax to BPM, width-5 moving average, clamp to [20,300], then run
compression with `hopSeconds = kLocalHopFrames * kFeatureFrameSeconds`. -/
def localTempoStage (localPrediction : List (List ℚ)) : List TempoPoint :=
  let localTempi0 := predictionRowsToBpmSeries localPrediction
  let localTempi1 := movingAverageSame localTempi0 kLocalSmoothingWindow
  let localTempi := localTempi1.map (fun bpm => clampDouble bpm kTempoMinBpm kTempoMaxBpm)
  let hopSeconds : ℚ := (kLocalHopFrames : ℚ) * kFeatureFrameSeconds
  compressTempoPoints localTempi hopSeconds

/-! ## Lemmas about rounding and compression (for claim C3) -/

/-- The run-compression acceptance relation between consecutive kept points
(negation of the skip condition at TempoCnn.cpp line 430). -/
def tempoAccept (a b : TempoPoint) : Prop :=
  kLocalTempoMinTimeDelta ≤ b.timeSeconds - a.timeSeconds ∨
    kLocalTempoMinBpmDelta ≤ |b.bpm - a.bpm|

lemma roundHalfAwayFromZero_mono {x y : ℚ} (h : x ≤ y) :
    roundHalfAwayFromZero x ≤ roundHalfAwayFromZero y := by
  unfold roundHalfAwayFromZero
  by_cases hx : x < 0 <;> by_cases hy : y < 0 <;> simp only [hx, hy, if_true, if_false]
  · exact neg_le_neg (Int.floor_le_floor (by linarith))
  · have h1 : (0 : ℤ) ≤ ⌊-x + 1/2⌋ := Int.floor_nonneg.mpr (by linarith)
    have h2 : (0 : ℤ) ≤ ⌊y + 1/2⌋ := Int.floor_nonneg.mpr (by linarith [not_lt.mp hy])
    omega
  · exact absurd (lt_of_le_of_lt h hy) hx
  · exact Int.floor_le_floor (by linarith)

lemma roundToDecimals_six (x : ℚ) :
    roundToDecimals x 6 = ((roundHalfAwayFromZero (x * 1000000) : ℤ) : ℚ) / 1000000 := by
  unfold roundToDecimals
  norm_num
  simp only [show (6 : ℤ).toNat = 6 from rfl]
  norm_num

lemma roundToDecimals6_mono {x y : ℚ} (h : x ≤ y) :
    roundToDecimals x 6 ≤ roundToDecimals y 6 := by
  rw [roundToDecimals_six, roundToDecimals_six]
  have := roundHalfAwayFromZero_mono (mul_le_mul_of_nonneg_right h (by norm_num : (0:ℚ) ≤ 1000000))
  have hcast : ((roundHalfAwayFromZero (x * 1000000) : ℤ) : ℚ) ≤
      ((roundHalfAwayFromZero (y * 1000000) : ℤ) : ℚ) := by exact_mod_cast this
  linarith

lemma roundToDecimals6_add_one {x : ℚ} (hx : 0 ≤ x) :
    roundToDecimals (x + 1) 6 = roundToDecimals x 6 + 1 := by
  rw [roundToDecimals_six, roundToDecimals_six]
  have h1 : ¬ (x + 1) * 1000000 < 0 := by nlinarith
  have h2 : ¬ x * 1000000 < 0 := by nlinarith
  unfold roundHalfAwayFromZero
  rw [if_neg h1, if_neg h2]
  have h3 : (x + 1) * 1000000 + 1/2 = x * 1000000 + 1/2 + (1000000 : ℤ) := by push_cast; ring
  rw [h3, Int.floor_add_int]
  push_cast
  ring

lemma roundToDecimals6_strict {x y : ℚ} (hx : 0 ≤ x) (h : x + 1 ≤ y) :
    roundToDecimals x 6 < roundToDecimals y 6 := by
  have h1 : roundToDecimals (x + 1) 6 ≤ roundToDecimals y 6 := roundToDecimals6_mono h
  rw [roundToDecimals6_add_one hx] at h1
  linarith

lemma clampDouble_le {v lo hi : ℚ} (h : lo ≤ hi) : clampDouble v lo hi ≤ hi := by
  unfold clampDouble
  exact max_le h (min_le_left _ _)

lemma le_clampDouble (v lo hi : ℚ) : lo ≤ clampDouble v lo hi :=
  le_max_left _ _

lemma rawTempoPoints_bpm_bounds {s : List ℚ} {hop : ℚ} {p : TempoPoint}
    (hp : p ∈ rawTempoPoints s hop) : kTempoMinBpm ≤ p.bpm ∧ p.bpm ≤ kTempoMaxBpm := by
  unfold rawTempoPoints at hp
  obtain ⟨i, _, rfl⟩ := List.mem_map.mp hp
  dsimp only
  constructor
  · have h1 := le_clampDouble (s.getD i 0) kTempoMinBpm kTempoMaxBpm
    have h2 := roundToDecimals6_mono h1
    have h3 : roundToDecimals kTempoMinBpm 6 = kTempoMinBpm := by
      rw [roundToDecimals_six]
      norm_num [roundHalfAwayFromZero, kTempoMinBpm]
    rw [h3] at h2
    exact h2
  · have h1 : clampDouble (s.getD i 0) kTempoMinBpm kTempoMaxBpm ≤ kTempoMaxBpm :=
      clampDouble_le (by norm_num [kTempoMinBpm, kTempoMaxBpm])
    have h2 := roundToDecimals6_mono h1
    have h3 : roundToDecimals kTempoMaxBpm 6 = kTempoMaxBpm := by
      rw [roundToDecimals_six]
      norm_num [roundHalfAwayFromZero, kTempoMaxBpm]
    rw [h3] at h2
    exact h2

lemma rawTempoPoints_times_sorted {s : List ℚ} {hop : ℚ} (hhop : 1 ≤ hop) :
    (rawTempoPoints s hop).Pairwise (fun a b => a.timeSeconds < b.timeSeconds) := by
  unfold rawTempoPoints
  rw [List.pairwise_map]
  refine (List.pairwise_lt_range _).imp ?_
  intro i j hij
  dsimp only
  refine roundToDecimals6_strict (by positivity) ?_
  have h1 : ((i : ℚ) + 1) * hop ≤ (j : ℚ) * hop := by
    have : (i : ℚ) + 1 ≤ (j : ℚ) := by exact_mod_cast hij
    exact mul_le_mul_of_nonneg_right this (by linarith)
  nlinarith [mul_le_mul_of_nonneg_left hhop (by positivity : (0:ℚ) ≤ (i : ℚ))]

lemma compressAux_sublist (last : TempoPoint) (rest : List TempoPoint) :
    (compressAux last rest).Sublist rest := by
  induction rest generalizing last with
  | nil => simp [compressAux]
  | cons current tl ih =>
    unfold compressAux
    split
    · exact (ih last).cons current
    · exact (ih current).cons₂ current

lemma compressAux_chain' (last : TempoPoint) (rest : List TempoPoint) :
    List.Chain' tempoAccept (last :: compressAux last rest) := by
  induction rest generalizing last with
  | nil => simp [compressAux]
  | cons current tl ih =>
    unfold compressAux
    split
    · exact ih last
    · rename_i hskip
      rw [List.chain'_cons]
      refine ⟨?_, ih current⟩
      unfold tempoAccept
      rcases not_and_or.mp hskip with h | h
      · exact Or.inl (not_lt.mp h)
      · refine Or.inr ?_
        rw [← fabsQ_eq_abs]
        exact not_lt.mp h

lemma compressTempoPoints_sublist (s : List ℚ) (hop : ℚ) :
    (compressTempoPoints s hop).Sublist (rawTempoPoints s hop) := by
  unfold compressTempoPoints
  split
  · simp
  · rename_i first rest heq
    rw [heq]
    exact (compressAux_sublist first rest).cons₂ first

lemma compressTempoPoints_chain' (s : List ℚ) (hop : ℚ) :
    List.Chain' tempoAccept (compressTempoPoints s hop) := by
  unfold compressTempoPoints
  split
  · simp
  · rename_i first rest heq
    exact compressAux_chain' first rest

lemma localTempoStage_eq (localPrediction : List (List ℚ)) :
    localTempoStage localPrediction =
      compressTempoPoints
        ((movingAverageSame (predictionRowsToBpmSeries localPrediction)
            kLocalSmoothingWindow).map
          (fun bpm => clampDouble bpm kTempoMinBpm kTempoMaxBpm))
        ((kLocalHopFrames : ℚ) * kFeatureFrameSeconds) := rfl

/-- C3: every tempo map produced by the local-tempo stage has all BPM values in
[20, 300], strictly increasing timestamps, and consecutive points separated by
at least 0.7 seconds or at least 0.75 BPM (values compared after the 6-decimal
rounding applied when the points are built). -/
theorem localTempoStage_invariants (localPrediction : List (List ℚ)) :
    (∀ p ∈ localTempoStage localPrediction,
        kTempoMinBpm ≤ p.bpm ∧ p.bpm ≤ kTempoMaxBpm) ∧
    (localTempoStage localPrediction).Pairwise (fun a b => a.timeSeconds < b.timeSeconds) ∧
    (localTempoStage localPrediction).Chain' tempoAccept := by
  rw [localTempoStage_eq]
  set series := (movingAverageSame (predictionRowsToBpmSeries localPrediction)
    kLocalSmoothingWindow).map (fun bpm => clampDouble bpm kTempoMinBpm kTempoMaxBpm) with hseries
  set hop : ℚ := (kLocalHopFrames : ℚ) * kFeatureFrameSeconds with hhop
  have hhop1 : 1 ≤ hop := by
    rw [hhop]
    norm_num [kLocalHopFrames, kFeatureFrameSeconds]
  refine ⟨?_, ?_, ?_⟩
  · intro p hp
    exact rawTempoPoints_bpm_bounds ((compressTempoPoints_sublist series hop).mem hp)
  · exact ((rawTempoPoints_times_sorted hhop1).sublist (compressTempoPoints_sublist series hop))
  · exact compressTempoPoints_chain' series hop

/-! ## Claim C6: parabolic interpolation -/

lemma add_clampDouble_unit (c δ : ℚ) :
    c + clampDouble δ (-1) 1 = clampDouble (c + δ) (c - 1) (c + 1) := by
  simp only [clampDouble, max_def, min_def]
  split_ifs <;> linarith

/-- C6: for a length-256 averaged posterior and an interior argmax index
`0 < c < 255`, `interpolateArgmax` returns `c + 0.5*(l-r)/(l-2m+r)` clamped to
`[c-1, c+1]`, falling back to exactly `c` when the denominator is within 1e-12
of zero; a boundary index (0 or 255) is returned unchanged; on the synthetic
posterior `[0.1, 1.0, 0.1]` the refined index equals the argmax center exactly,
and on `[0.1, 0.5, 0.9]` it lies within `[center, center+1)`. -/
theorem interpolateArgmax_spec :
    (∀ (values : List ℚ) (c : ℤ), values.length = kTempoClasses → 0 < c → c < 255 →
      interpolateArgmax values c =
        (let l := values.getD (c - 1).toNat 0
         let m := values.getD c.toNat 0
         let r := values.getD (c + 1).toNat 0
         let denom := l - 2 * m + r
         if fabsQ denom < 1 / 10 ^ 12 then (c : ℚ)
         else clampDouble ((c : ℚ) + (1/2) * (l - r) / denom) ((c : ℚ) - 1) ((c : ℚ) + 1))) ∧
    (∀ (values : List ℚ) (c : ℤ), values.length = kTempoClasses → (c = 0 ∨ c = 255) →
      interpolateArgmax values c = (c : ℚ)) ∧
    (argmax [1/10, 1, 1/10] = 1 ∧
      interpolateArgmax [1/10, 1, 1/10] ((argmax [1/10, 1, 1/10] : ℕ) : ℤ) =
        ((argmax [1/10, 1, 1/10] : ℕ) : ℚ)) ∧
    (argmax [1/10, 1/2, 9/10] = 2 ∧
      ((argmax [1/10, 1/2, 9/10] : ℕ) : ℚ) ≤
        interpolateArgmax [1/10, 1/2, 9/10] ((argmax [1/10, 1/2, 9/10] : ℕ) : ℤ) ∧
      interpolateArgmax [1/10, 1/2, 9/10] ((argmax [1/10, 1/2, 9/10] : ℕ) : ℤ) <
        ((argmax [1/10, 1/2, 9/10] : ℕ) : ℚ) + 1) := by
  have hargmax1 : argmax [1/10, 1, 1/10] = 1 := by
    norm_num [argmax, List.range_succ, List.getD]
  have hargmax2 : argmax [1/10, 1/2, 9/10] = 2 := by
    norm_num [argmax, List.range_succ, List.getD]
  refine ⟨?_, ?_, ?_, ?_⟩
  · intro values c hlen hc1 hc2
    unfold interpolateArgmax
    rw [hlen]
    rw [if_neg (by unfold kTempoClasses; omega)]
    dsimp only
    split
    · rfl
    · exact add_clampDouble_unit _ _
  · intro values c hlen hc
    unfold interpolateArgmax
    rw [hlen]
    rcases hc with rfl | rfl
    · rw [if_pos (Or.inl le_rfl)]
    · rw [if_pos (Or.inr (by unfold kTempoClasses; omega))]
  · refine ⟨hargmax1, ?_⟩
    rw [hargmax1]
    unfold interpolateArgmax
    norm_num [List.getD, fabsQ, clampDouble, max_def, min_def,
      show ((0 : ℤ)).toNat = 0 from rfl, show ((1 : ℤ)).toNat = 1 from rfl,
      show ((2 : ℤ)).toNat = 2 from rfl]
  · refine ⟨hargmax2, ?_⟩
    rw [hargmax2]
    unfold interpolateArgmax
    norm_num

/-- Witness for `interpolateArgmax_spec`: instantiate the interior-index clause
at a concrete length-256 posterior with argmax 100 (neighbor values 0, peak 1),
where the parabola is symmetric and the refined index is exactly 100. -/
theorem interpolateArgmax_spec_witness :
    ((List.replicate 256 (0 : ℚ)).set 100 1).length = kTempoClasses ∧ (0 : ℤ) < 100 ∧
      (100 : ℤ) < 255 ∧
      interpolateArgmax ((List.replicate 256 (0 : ℚ)).set 100 1) 100 =
        (let l := ((List.replicate 256 (0 : ℚ)).set 100 1).getD ((100 : ℤ) - 1).toNat 0
         let m := ((List.replicate 256 (0 : ℚ)).set 100 1).getD (100 : ℤ).toNat 0
         let r := ((List.replicate 256 (0 : ℚ)).set 100 1).getD ((100 : ℤ) + 1).toNat 0
         let denom := l - 2 * m + r
         if fabsQ denom < 1 / 10 ^ 12 then ((100 : ℤ) : ℚ)
         else clampDouble (((100 : ℤ) : ℚ) + (1/2) * (l - r) / denom)
           (((100 : ℤ) : ℚ) - 1) (((100 : ℤ) : ℚ) + 1)) :=
  ⟨by rw [List.length_set, List.length_replicate]; rfl, by norm_num, by norm_num,
    interpolateArgmax_spec.1 _ 100 (by rw [List.length_set, List.length_replicate]; rfl)
      (by norm_num) (by norm_num)⟩

/-! ## Claim C7: width-5 moving average -/

lemma ite_in_range_compl (s len : ℤ) (x : ℚ) :
    (if 0 ≤ s ∧ s < len then x else 0) = (if s < 0 ∨ len ≤ s then 0 else x) := by
  split_ifs <;> first | rfl | omega

lemma safeOddWindow_five : safeOddWindow 5 = 5 := by
  norm_num [safeOddWindow, max_def]

lemma movingAverageSame_five (values : List ℚ) (hne : values ≠ []) :
    movingAverageSame values 5 =
      (List.range values.length).map (fun (index : ℕ) =>
        ((List.range 5).foldl
          (fun (acc : ℚ) (j : ℕ) =>
            if ((index : ℤ) + (j : ℤ) - 2 < 0 ∨
                (values.length : ℤ) ≤ (index : ℤ) + (j : ℤ) - 2) then acc
            else acc + values.getD ((index : ℤ) + (j : ℤ) - 2).toNat 0) 0) / 5) := by
  unfold movingAverageSame
  rw [if_neg hne]
  simp only [safeOddWindow_five, show ((5 : ℤ) / 2) = 2 from by norm_num,
    show ((2 : ℤ)).toNat = 2 from rfl, show 2 * 2 + 1 = 5 from by norm_num,
    show (((5 : ℤ) : ℚ)) = 5 from by norm_num]

/-- C7: for a non-empty BPM series, the width-5 moving average keeps the
length, and entry `i` is the sum of the in-range inputs at indices
`[i-2, i+2]` divided by the nominal width 5 (never by the in-range count). -/
theorem movingAverageSame_width5_spec (values : List ℚ) (hne : values ≠ []) :
    (movingAverageSame values 5).length = values.length ∧
    ∀ i : ℕ, i < values.length →
      (movingAverageSame values 5).getD i 0 =
        (∑ j ∈ Finset.Icc ((i : ℤ) - 2) ((i : ℤ) + 2),
          if 0 ≤ j ∧ j < (values.length : ℤ) then values.getD j.toNat 0 else 0) / 5 := by
  rw [movingAverageSame_five values hne]
  constructor
  · simp
  · intro i hi
    rw [List.getD_eq_getElem?_getD, List.getElem?_map, List.getElem?_range hi]
    simp only [Option.map_some', Option.getD_some]
    congr 1
    have himg : Finset.Icc ((i : ℤ) - 2) ((i : ℤ) + 2) =
        (Finset.range 5).image (fun (j : ℕ) => (i : ℤ) + (j : ℤ) - 2) := by
      ext x
      simp only [Finset.mem_Icc, Finset.mem_image, Finset.mem_range]
      constructor
      · intro hx
        refine ⟨(x - (i : ℤ) + 2).toNat, by omega, by omega⟩
      · rintro ⟨j, hj, rfl⟩
        omega
    rw [himg, Finset.sum_image (by intro a _ b _ h; omega)]
    simp only [ite_in_range_compl]
    rw [show (List.range 5) = [0, 1, 2, 3, 4] from rfl]
    simp only [List.foldl_cons, List.foldl_nil]
    rw [Finset.sum_range_succ, Finset.sum_range_succ, Finset.sum_range_succ,
      Finset.sum_range_succ, Finset.sum_range_one]
    split_ifs <;> ring

/-- Witness for `movingAverageSame_width5_spec` at the concrete series
`[1, 2, 3]`. -/
theorem movingAverageSame_width5_spec_witness :
    ([(1 : ℚ), 2, 3] ≠ []) ∧
    ((movingAverageSame [(1 : ℚ), 2, 3] 5).length = [(1 : ℚ), 2, 3].length ∧
      ∀ i : ℕ, i < [(1 : ℚ), 2, 3].length →
        (movingAverageSame [(1 : ℚ), 2, 3] 5).getD i 0 =
          (∑ j ∈ Finset.Icc ((i : ℤ) - 2) ((i : ℤ) + 2),
            if 0 ≤ j ∧ j < (([(1 : ℚ), 2, 3].length : ℕ) : ℤ) then
              [(1 : ℚ), 2, 3].getD j.toNat 0 else 0) / 5) :=
  ⟨by simp, movingAverageSame_width5_spec [(1 : ℚ), 2, 3] (by simp)⟩

/-! ## TempoCnn.cpp: mel spectrogram and sliding windows (lines 37-45, 186-310) -/

/-- `FeatureTensor` (TempoCnn.cpp line 37): flat band-major data
(`data[mel * totalFrames + frame]`) plus the frame count (`int`, never negative
in the modelled code, so `ℕ`). -/
structure FeatureTensor where
  data : List ℚ
  totalFrames : ℕ
  deriving DecidableEq

/-- `SlidingWindowTensor` (TempoCnn.cpp line 42): flat data laid out as
`data[(windowIndex * kMelBands + mel) * windowFrames + frame]`. -/
structure SlidingWindowTensor where
  data : List ℚ
  numWindows : ℕ
  deriving DecidableEq

/-- `computeMelSpectrogram` (TempoCnn.cpp lines 186-241), embedded at the
shape level: the early-empty return, the `kNfft/2`-sample center padding on
each side, the `padded.size() < kNfft` guard, the frame count
`1 + (padded - kNfft)/hop`, and the `kMelBands * frameCount` output layout are
taken from the source.  The numeric value of each cell (Hann window, radix-2
FFT magnitudes, Slaney filterbank — transcendental-valued quantities) is
abstracted as the parameter `melValue (band, frame)`; no claim in scope
depends on those values, only on the tensor's shape and emptiness. -/
def computeMelSpectrogram (melValue : ℕ → ℕ → ℚ) (monoSamples : List ℚ) : FeatureTensor :=
  if monoSamples = [] then ⟨[], 0⟩
  else
    let padded := List.replicate (kNfft / 2) (0 : ℚ) ++ monoSamples ++
      List.replicate (kNfft / 2) (0 : ℚ)
    if padded.length < kNfft then ⟨[], 0⟩
    else
      let frameCount := 1 + (padded.length - kNfft) / kStftHopLength
      ⟨(List.range (kMelBands * frameCount)).map
          (fun idx => melValue (idx / frameCount) (idx % frameCount)),
        frameCount⟩

/-- The input/mel guards at the head of `TempoCnn::estimate` (TempoCnn.cpp
lines 560-567): empty audio throws "Input audio is empty." (the
EmptyInputError path) and an empty mel tensor throws "Failed to compute mel
features.". -/
def estimateMelGuard (melValue : ℕ → ℕ → ℚ) (monoSamples : List ℚ) :
    Except String FeatureTensor :=
  if monoSamples = [] then Except.error "Input audio is empty."
  else
    let mel := computeMelSpectrogram melValue monoSamples
    if mel.totalFrames = 0 ∨ mel.data = [] then Except.error "Failed to compute mel features."
    else Except.ok mel

/-- One band-copy loop of `toSlidingWindows` (TempoCnn.cpp lines 258-288): a
zero-filled `kMelBands × (zerosBefore + framesIn + zerosAfter)` buffer into
which each band's `framesIn` source frames are copied at offset
`zerosBefore`. -/
def padBands (dataIn : List ℚ) (framesIn zerosBefore zerosAfter : ℕ) : List ℚ :=
  (List.range kMelBands).flatMap (fun mel =>
    List.replicate zerosBefore (0 : ℚ) ++
      ((dataIn.drop (mel * framesIn)).take framesIn) ++
      List.replicate zerosAfter (0 : ℚ))

/-- `std::max(1, hopFrames)` (TempoCnn.cpp line 291); a non-positive C++ hop
clamps to 1 exactly as `0` does here. -/
def safeHopOf (hopFrames : ℕ) : ℕ :=
  if 1 < hopFrames then hopFrames else 1

/-- The working data/frames after the optional `zeroPad` step of
`toSlidingWindows` (TempoCnn.cpp lines 253-272): `windowFrames` total zero
frames, `windowFrames/2` of them before the data. -/
def workingAfterZeroPad (features : FeatureTensor) (windowFrames : ℕ) (zeroPad : Bool) :
    List ℚ × ℕ :=
  if zeroPad then
    (padBands features.data features.totalFrames (windowFrames / 2)
        (windowFrames - windowFrames / 2),
      features.totalFrames + windowFrames)
  else
    (features.data, features.totalFrames)

/-- The working data/frames after the short-input right-padding step of
`toSlidingWindows` (TempoCnn.cpp lines 274-289). -/
def workingPair (features : FeatureTensor) (windowFrames : ℕ) (zeroPad : Bool) :
    List ℚ × ℕ :=
  let w := workingAfterZeroPad features windowFrames zeroPad
  if w.2 < windowFrames then (padBands w.1 w.2 0 (windowFrames - w.2), windowFrames)
  else w

/-- `toSlidingWindows` (TempoCnn.cpp lines 243-310). -/
def toSlidingWindows (features : FeatureTensor) (windowFrames hopFrames : ℕ)
    (zeroPad : Bool) : SlidingWindowTensor :=
  if features.totalFrames = 0 ∨ features.data = [] then ⟨[], 0⟩
  else
    let w := workingPair features windowFrames zeroPad
    let numWindows := (w.2 - windowFrames) / safeHopOf hopFrames + 1
    ⟨(List.range numWindows).flatMap (fun windowIndex =>
        (List.range kMelBands).flatMap (fun mel =>
          (w.1.drop (mel * w.2 + windowIndex * safeHopOf hopFrames)).take windowFrames)),
      numWindows⟩

/-! ## Claim C4: behavior on short non-empty input -/

/-- C4 counterexample: the single-sample input `[1]` is non-empty and shorter
than one FFT window (1 < 1024), yet the mel stage returns a non-empty
one-frame tensor (center padding brings the padded length to 1025 ≥ 1024) and
`estimate`'s guards do not throw: the claimed empty tensor / EmptyInputError
behavior does not occur. -/
theorem computeMelSpectrogram_short_input_cex :
    [(1 : ℚ)].length < kNfft ∧
    (computeMelSpectrogram (fun _ _ => 0) [(1 : ℚ)]).data ≠ [] ∧
    (computeMelSpectrogram (fun _ _ => 0) [(1 : ℚ)]).totalFrames = 1 ∧
    estimateMelGuard (fun _ _ => 0) [(1 : ℚ)] =
      Except.ok (computeMelSpectrogram (fun _ _ => 0) [(1 : ℚ)]) := by
  decide

lemma computeMelSpectrogram_nonempty (melValue : ℕ → ℕ → ℚ)
    (monoSamples : List ℚ) (hne : monoSamples ≠ []) :
    computeMelSpectrogram melValue monoSamples =
      ⟨(List.range (kMelBands * (1 + monoSamples.length / kStftHopLength))).map
          (fun idx => melValue (idx / (1 + monoSamples.length / kStftHopLength))
            (idx % (1 + monoSamples.length / kStftHopLength))),
        1 + monoSamples.length / kStftHopLength⟩ := by
  unfold computeMelSpectrogram
  rw [if_neg hne]
  have hplen : (List.replicate (kNfft / 2) (0 : ℚ) ++ monoSamples ++
      List.replicate (kNfft / 2) (0 : ℚ)).length = monoSamples.length + kNfft := by
    simp only [List.length_append, List.length_replicate, kNfft]
    omega
  simp only [hplen]
  rw [if_neg (by omega)]
  simp only [Nat.add_sub_cancel]

/-- C4 amended: a non-empty input of any length (in particular fewer than 1024
samples) yields a non-empty mel tensor with `1 + n/512` frames, and
`TempoCnn::estimate` raises neither EmptyInputError nor the empty-mel error
for it; only the empty input raises EmptyInputError. -/
theorem computeMelSpectrogram_short_input_amended (melValue : ℕ → ℕ → ℚ)
    (monoSamples : List ℚ) (hne : monoSamples ≠ []) :
    (computeMelSpectrogram melValue monoSamples).totalFrames =
        1 + monoSamples.length / kStftHopLength ∧
    (computeMelSpectrogram melValue monoSamples).data.length =
        kMelBands * (1 + monoSamples.length / kStftHopLength) ∧
    (computeMelSpectrogram melValue monoSamples).data ≠ [] ∧
    estimateMelGuard melValue monoSamples =
      Except.ok (computeMelSpectrogram melValue monoSamples) ∧
    estimateMelGuard melValue [] = Except.error "Input audio is empty." := by
  have hmel := computeMelSpectrogram_nonempty melValue monoSamples hne
  have hframes : (computeMelSpectrogram melValue monoSamples).totalFrames =
      1 + monoSamples.length / kStftHopLength := by rw [hmel]
  have hdatalen : (computeMelSpectrogram melValue monoSamples).data.length =
      kMelBands * (1 + monoSamples.length / kStftHopLength) := by
    rw [hmel]
    simp
  have hdata : (computeMelSpectrogram melValue monoSamples).data ≠ [] := by
    refine List.ne_nil_of_length_pos ?_
    rw [hdatalen]
    simp [kMelBands]
  refine ⟨hframes, hdatalen, hdata, ?_, by rfl⟩
  unfold estimateMelGuard
  rw [if_neg hne, if_neg (by rw [hframes]; simp [hdata])]

/-- Witness for `computeMelSpectrogram_short_input_amended` at input `[1]`. -/
theorem computeMelSpectrogram_short_input_amended_witness :
    ([(1 : ℚ)] ≠ []) ∧
    ((computeMelSpectrogram (fun _ _ => 0) [(1 : ℚ)]).totalFrames =
        1 + [(1 : ℚ)].length / kStftHopLength ∧
      (computeMelSpectrogram (fun _ _ => 0) [(1 : ℚ)]).data.length =
        kMelBands * (1 + [(1 : ℚ)].length / kStftHopLength) ∧
      (computeMelSpectrogram (fun _ _ => 0) [(1 : ℚ)]).data ≠ [] ∧
      estimateMelGuard (fun _ _ => 0) [(1 : ℚ)] =
        Except.ok (computeMelSpectrogram (fun _ _ => 0) [(1 : ℚ)]) ∧
      estimateMelGuard (fun _ _ => (0 : ℚ)) [] = Except.error "Input audio is empty.") :=
  ⟨by decide, computeMelSpectrogram_short_input_amended (fun _ _ => 0) [(1 : ℚ)] (by decide)⟩

/-! ## Claim C5: sliding-window builder -/

lemma flatMap_fixed_length (g : ℕ → List ℚ) (k : ℕ) :
    ∀ (l : List ℕ), (∀ j ∈ l, (g j).length = k) → (l.flatMap g).length = l.length * k := by
  intro l
  induction l with
  | nil => simp
  | cons x tl ih =>
    intro h
    simp only [List.flatMap_cons, List.length_append, List.length_cons]
    rw [h x (by simp), ih (fun j hj => h j (by simp [hj]))]
    ring

lemma flatMap_slice_inner (g : ℕ → List ℚ) (k : ℕ) :
    ∀ (l : List ℕ), (∀ j ∈ l, (g j).length = k) →
      ∀ (i : ℕ) (hi : i < l.length) (r t : ℕ), r + t ≤ k →
        ((l.flatMap g).drop (i * k + r)).take t = ((g (l.get ⟨i, hi⟩)).drop r).take t := by
  intro l
  induction l with
  | nil =>
    intro _ i hi
    simp at hi
  | cons x tl ih =>
    intro hall i hi r t hrt
    cases i with
    | zero =>
      simp only [List.flatMap_cons, Nat.zero_mul, Nat.zero_add, List.get]
      rw [List.drop_append_eq_append_drop]
      have hx : (g x).length = k := hall x (by simp)
      have h1 : r - (g x).length = 0 := by omega
      rw [h1, List.drop_zero]
      refine List.take_append_of_le_length ?_
      rw [List.length_drop]
      omega
    | succ n =>
      simp only [List.flatMap_cons, List.get]
      have hx : (g x).length = k := hall x (by simp)
      have h1 : (n + 1) * k + r = (g x).length + (n * k + r) := by rw [hx]; ring
      rw [h1, List.drop_append_eq_append_drop]
      have h2 : (g x).length + (n * k + r) - (g x).length = n * k + r := by omega
      have h3 : ((g x).drop ((g x).length + (n * k + r))).length = 0 := by
        rw [List.length_drop]
        omega
      rw [List.eq_nil_of_length_eq_zero h3, List.nil_append, h2]
      exact ih (fun j hj => hall j (by simp [hj])) n (by simpa using hi) r t hrt

lemma flatMap_block (g : ℕ → List ℚ) (k : ℕ) (l : List ℕ)
    (hall : ∀ j ∈ l, (g j).length = k) (i : ℕ) (hi : i < l.length) :
    ((l.flatMap g).drop (i * k)).take k = g (l.get ⟨i, hi⟩) := by
  have h := flatMap_slice_inner g k l hall i hi 0 k (by omega)
  rw [Nat.add_zero] at h
  rw [h, List.drop_zero]
  exact List.take_of_length_le (by rw [hall _ (List.get_mem l i hi)])

lemma padBands_block_length (dataIn : List ℚ) (framesIn zb za : ℕ)
    (hlen : dataIn.length = kMelBands * framesIn) :
    ∀ mel ∈ List.range kMelBands,
      (List.replicate zb (0 : ℚ) ++ (dataIn.drop (mel * framesIn)).take framesIn ++
        List.replicate za (0 : ℚ)).length = zb + framesIn + za := by
  intro mel hmel
  rw [List.mem_range] at hmel
  simp only [List.length_append, List.length_replicate, List.length_take, List.length_drop]
  have : framesIn ≤ dataIn.length - mel * framesIn := by
    rw [hlen]
    have h1 : (mel + 1) * framesIn ≤ kMelBands * framesIn :=
      Nat.mul_le_mul_right framesIn hmel
    rw [Nat.succ_mul] at h1
    omega
  omega

lemma padBands_length (dataIn : List ℚ) (framesIn zb za : ℕ)
    (hlen : dataIn.length = kMelBands * framesIn) :
    (padBands dataIn framesIn zb za).length = kMelBands * (zb + framesIn + za) := by
  unfold padBands
  rw [flatMap_fixed_length _ _ _ (padBands_block_length dataIn framesIn zb za hlen)]
  simp [Nat.mul_comm]

lemma padBands_band (dataIn : List ℚ) (framesIn zb za : ℕ)
    (hlen : dataIn.length = kMelBands * framesIn) (mel : ℕ) (hmel : mel < kMelBands) :
    ((padBands dataIn framesIn zb za).drop (mel * (zb + framesIn + za))).take
        (zb + framesIn + za) =
      List.replicate zb 0 ++ (dataIn.drop (mel * framesIn)).take framesIn ++
        List.replicate za 0 := by
  unfold padBands
  have h := flatMap_block _ _ (List.range kMelBands)
    (padBands_block_length dataIn framesIn zb za hlen) mel (by simpa using hmel)
  rw [h]
  congr 1
  simp

/-- Band `mel` of a band-major feature tensor. -/
def melBand (features : FeatureTensor) (mel : ℕ) : List ℚ :=
  (features.data.drop (mel * features.totalFrames)).take features.totalFrames

lemma workingPair_frames (features : FeatureTensor) (zp : Bool) :
    (workingPair features kWindowFrames zp).2 =
      if zp then features.totalFrames + kWindowFrames
      else if features.totalFrames < kWindowFrames then kWindowFrames
      else features.totalFrames := by
  unfold workingPair workingAfterZeroPad
  cases zp
  · simp only [Bool.false_eq_true, if_false]
    split <;> rfl
  · simp only [if_true]
    rw [if_neg (by omega)]

lemma workingPair_true_eq (features : FeatureTensor) :
    workingPair features kWindowFrames true =
      (padBands features.data features.totalFrames (kWindowFrames / 2)
          (kWindowFrames - kWindowFrames / 2),
        features.totalFrames + kWindowFrames) := by
  unfold workingPair workingAfterZeroPad
  simp only [if_true]
  rw [if_neg (by omega)]

lemma workingPair_false_short_eq (features : FeatureTensor)
    (hshort : features.totalFrames < kWindowFrames) :
    workingPair features kWindowFrames false =
      (padBands features.data features.totalFrames 0
          (kWindowFrames - features.totalFrames),
        kWindowFrames) := by
  unfold workingPair workingAfterZeroPad
  simp only [Bool.false_eq_true, if_false]
  rw [if_pos hshort]

lemma workingPair_false_long_eq (features : FeatureTensor)
    (hlong : ¬ features.totalFrames < kWindowFrames) :
    workingPair features kWindowFrames false = (features.data, features.totalFrames) := by
  unfold workingPair workingAfterZeroPad
  simp only [Bool.false_eq_true, if_false]
  rw [if_neg hlong]

lemma workingPair_length (features : FeatureTensor) (zp : Bool)
    (hlen : features.data.length = kMelBands * features.totalFrames) :
    (workingPair features kWindowFrames zp).1.length =
      kMelBands * (workingPair features kWindowFrames zp).2 := by
  cases zp
  · by_cases hshort : features.totalFrames < kWindowFrames
    · rw [workingPair_false_short_eq features hshort]
      rw [padBands_length features.data features.totalFrames 0
        (kWindowFrames - features.totalFrames) hlen]
      congr 1
      omega
    · rw [workingPair_false_long_eq features hshort]
      exact hlen
  · rw [workingPair_true_eq features]
    rw [padBands_length features.data features.totalFrames (kWindowFrames / 2)
      (kWindowFrames - kWindowFrames / 2) hlen]
    congr 1
    have : kWindowFrames / 2 ≤ kWindowFrames := Nat.div_le_self _ _
    omega

lemma workingPair_window_le (features : FeatureTensor) (zp : Bool) :
    kWindowFrames ≤ (workingPair features kWindowFrames zp).2 := by
  rw [workingPair_frames]
  split_ifs <;> omega

lemma toSlidingWindows_eq (features : FeatureTensor) (hopFrames : ℕ) (zp : Bool)
    (hlen : features.data.length = kMelBands * features.totalFrames)
    (hT : 1 ≤ features.totalFrames) :
    toSlidingWindows features kWindowFrames hopFrames zp =
      ⟨(List.range
            (((workingPair features kWindowFrames zp).2 - kWindowFrames) /
              safeHopOf hopFrames + 1)).flatMap
          (fun windowIndex =>
            (List.range kMelBands).flatMap (fun mel =>
              ((workingPair features kWindowFrames zp).1.drop
                  (mel * (workingPair features kWindowFrames zp).2 +
                    windowIndex * safeHopOf hopFrames)).take kWindowFrames)),
        ((workingPair features kWindowFrames zp).2 - kWindowFrames) /
          safeHopOf hopFrames + 1⟩ := by
  unfold toSlidingWindows
  rw [if_neg ?_]
  push_neg
  constructor
  · omega
  · refine List.ne_nil_of_length_pos ?_
    rw [hlen]
    have : 1 ≤ kMelBands := by unfold kMelBands; omega
    exact Nat.mul_pos (by omega) (by omega)

lemma safeHopOf_pos (hopFrames : ℕ) : 1 ≤ safeHopOf hopFrames := by
  unfold safeHopOf
  split <;> omega

lemma window_offset_le (features : FeatureTensor) (hopFrames : ℕ) (zp : Bool) (wi : ℕ)
    (hwi : wi < ((workingPair features kWindowFrames zp).2 - kWindowFrames) /
      safeHopOf hopFrames + 1) :
    wi * safeHopOf hopFrames ≤ (workingPair features kWindowFrames zp).2 - kWindowFrames := by
  have h1 : wi ≤ ((workingPair features kWindowFrames zp).2 - kWindowFrames) /
      safeHopOf hopFrames := by omega
  calc wi * safeHopOf hopFrames
      ≤ (((workingPair features kWindowFrames zp).2 - kWindowFrames) /
          safeHopOf hopFrames) * safeHopOf hopFrames :=
        Nat.mul_le_mul_right _ h1
    _ ≤ (workingPair features kWindowFrames zp).2 - kWindowFrames :=
        Nat.div_mul_le_self _ _

lemma window_band_length (features : FeatureTensor) (hopFrames : ℕ) (zp : Bool)
    (hlen : features.data.length = kMelBands * features.totalFrames) (wi : ℕ)
    (hwi : wi < ((workingPair features kWindowFrames zp).2 - kWindowFrames) /
      safeHopOf hopFrames + 1) :
    ∀ mel ∈ List.range kMelBands,
      (((workingPair features kWindowFrames zp).1.drop
          (mel * (workingPair features kWindowFrames zp).2 +
            wi * safeHopOf hopFrames)).take kWindowFrames).length = kWindowFrames := by
  intro mel hmel
  rw [List.mem_range] at hmel
  have hw1 := workingPair_length features zp hlen
  have hw2 := workingPair_window_le features zp
  have hoff := window_offset_le features hopFrames zp wi hwi
  rw [List.length_take, List.length_drop, hw1]
  have hmul : (mel + 1) * (workingPair features kWindowFrames zp).2 ≤
      kMelBands * (workingPair features kWindowFrames zp).2 :=
    Nat.mul_le_mul_right _ hmel
  rw [Nat.succ_mul] at hmul
  omega

/-- C5 counterexample: for the empty mel tensor (`T = 0` frames) with the
local-tempo parameters (hop 32, zeroPad set), the claimed window count
`⌊(T' − W)/max(1,H)⌋ + 1` evaluates to 1 — "every input shorter than one
window yields exactly one window" — but `toSlidingWindows` returns zero
windows because of its empty-input guard. -/
theorem toSlidingWindows_empty_tensor_cex :
    (toSlidingWindows ⟨[], 0⟩ kWindowFrames kLocalHopFrames true).numWindows = 0 ∧
    ((workingPair ⟨[], 0⟩ kWindowFrames true).2 - kWindowFrames) /
        safeHopOf kLocalHopFrames + 1 = 1 := by
  decide

/-- C5 amended: for a well-formed mel tensor with at least one frame, the
builder produces exactly `⌊(T' − W)/max(1,H)⌋ + 1` windows where `T'` is the
working length (original frames, plus `W` total zero frames when `zeroPad`,
right-padded up to `W` when shorter than one window); with `zeroPad` each
band's working row is exactly 128 zero frames, the band, then 128 zero
frames; a short unpadded input is right-padded to exactly `W` and yields
exactly one window; and window `n` of band `mel` consists of the `W` working
frames starting at time offset `n * max(1, H)` (the clamped hop). -/
theorem toSlidingWindows_spec (features : FeatureTensor) (hopFrames : ℕ) (zp : Bool)
    (hlen : features.data.length = kMelBands * features.totalFrames)
    (hT : 1 ≤ features.totalFrames) :
    (toSlidingWindows features kWindowFrames hopFrames zp).numWindows =
        ((workingPair features kWindowFrames zp).2 - kWindowFrames) /
          safeHopOf hopFrames + 1 ∧
    (workingPair features kWindowFrames zp).2 =
        (if zp then features.totalFrames + kWindowFrames
         else if features.totalFrames < kWindowFrames then kWindowFrames
         else features.totalFrames) ∧
    (zp = true → ∀ mel < kMelBands,
        (((workingPair features kWindowFrames zp).1.drop
            (mel * (workingPair features kWindowFrames zp).2)).take
          ((workingPair features kWindowFrames zp).2)) =
        List.replicate 128 0 ++ melBand features mel ++ List.replicate 128 0) ∧
    (zp = false → features.totalFrames < kWindowFrames → ∀ mel < kMelBands,
        (((workingPair features kWindowFrames zp).1.drop
            (mel * (workingPair features kWindowFrames zp).2)).take
          ((workingPair features kWindowFrames zp).2)) =
        melBand features mel ++ List.replicate (kWindowFrames - features.totalFrames) 0) ∧
    (∀ wi < (toSlidingWindows features kWindowFrames hopFrames zp).numWindows,
      ∀ mel < kMelBands,
        (((toSlidingWindows features kWindowFrames hopFrames zp).data.drop
            ((wi * kMelBands + mel) * kWindowFrames)).take kWindowFrames) =
        (((workingPair features kWindowFrames zp).1.drop
            (mel * (workingPair features kWindowFrames zp).2 +
              wi * safeHopOf hopFrames)).take kWindowFrames)) ∧
    (zp = false → features.totalFrames < kWindowFrames →
      (toSlidingWindows features kWindowFrames hopFrames zp).numWindows = 1) := by
  have htsw := toSlidingWindows_eq features hopFrames zp hlen hT
  refine ⟨by rw [htsw], workingPair_frames features zp, ?_, ?_, ?_, ?_⟩
  · rintro rfl mel hmel
    rw [workingPair_true_eq features]
    dsimp only
    have hband := padBands_band features.data features.totalFrames (kWindowFrames / 2)
      (kWindowFrames - kWindowFrames / 2) hlen mel hmel
    have harith : kWindowFrames / 2 + features.totalFrames +
        (kWindowFrames - kWindowFrames / 2) = features.totalFrames + kWindowFrames := by
      have : kWindowFrames / 2 ≤ kWindowFrames := Nat.div_le_self _ _
      omega
    rw [harith] at hband
    rw [hband]
    unfold melBand
    norm_num [kWindowFrames]
  · rintro rfl hshort mel hmel
    rw [workingPair_false_short_eq features hshort]
    dsimp only
    have hband := padBands_band features.data features.totalFrames 0
      (kWindowFrames - features.totalFrames) hlen mel hmel
    have harith : 0 + features.totalFrames + (kWindowFrames - features.totalFrames) =
        kWindowFrames := by omega
    rw [harith] at hband
    rw [hband]
    unfold melBand
    simp
  · intro wi hwi mel hmel
    rw [htsw] at hwi ⊢
    dsimp only at hwi ⊢
    have hwin := window_band_length features hopFrames zp hlen wi hwi
    have houter : ∀ j ∈ List.range
        (((workingPair features kWindowFrames zp).2 - kWindowFrames) /
          safeHopOf hopFrames + 1),
        ((List.range kMelBands).flatMap (fun mel =>
          ((workingPair features kWindowFrames zp).1.drop
              (mel * (workingPair features kWindowFrames zp).2 +
                j * safeHopOf hopFrames)).take kWindowFrames)).length =
          kMelBands * kWindowFrames := by
      intro j hj
      rw [List.mem_range] at hj
      rw [flatMap_fixed_length _ _ _ (window_band_length features hopFrames zp hlen j hj)]
      simp
    have hoff : (wi * kMelBands + mel) * kWindowFrames =
        wi * (kMelBands * kWindowFrames) + mel * kWindowFrames := by ring
    rw [hoff]
    have hmel' : mel * kWindowFrames + kWindowFrames ≤ kMelBands * kWindowFrames := by
      have := Nat.mul_le_mul_right kWindowFrames (by omega : mel + 1 ≤ kMelBands)
      rw [Nat.succ_mul] at this
      omega
    rw [flatMap_slice_inner _ _ _ houter wi (by simpa using hwi) (mel * kWindowFrames)
      kWindowFrames hmel']
    have hget : (List.range
        (((workingPair features kWindowFrames zp).2 - kWindowFrames) /
          safeHopOf hopFrames + 1)).get ⟨wi, by simpa using hwi⟩ = wi := by
      simp
    rw [hget]
    rw [flatMap_block _ _ _ hwin mel (by simpa using hmel)]
    congr 1
    simp
  · rintro rfl hshort
    rw [htsw]
    dsimp only
    rw [workingPair_frames]
    simp only [Bool.false_eq_true, if_false, if_pos hshort]
    simp

/-- Witness for `toSlidingWindows_spec`: a 40-band, 1-frame tensor (all
entries 1) with the local-tempo parameters (hop 32, zeroPad). -/
theorem toSlidingWindows_spec_witness :
    ((List.replicate 40 (1 : ℚ)).length =
        kMelBands * (FeatureTensor.mk (List.replicate 40 (1 : ℚ)) 1).totalFrames ∧
      1 ≤ (FeatureTensor.mk (List.replicate 40 (1 : ℚ)) 1).totalFrames) ∧
    ((toSlidingWindows ⟨List.replicate 40 (1 : ℚ), 1⟩ kWindowFrames kLocalHopFrames
          true).numWindows =
        ((workingPair ⟨List.replicate 40 (1 : ℚ), 1⟩ kWindowFrames true).2 -
            kWindowFrames) / safeHopOf kLocalHopFrames + 1 ∧
      (workingPair ⟨List.replicate 40 (1 : ℚ), 1⟩ kWindowFrames true).2 =
        (if true then (FeatureTensor.mk (List.replicate 40 (1 : ℚ)) 1).totalFrames +
            kWindowFrames
         else if (FeatureTensor.mk (List.replicate 40 (1 : ℚ)) 1).totalFrames <
             kWindowFrames then kWindowFrames
         else (FeatureTensor.mk (List.replicate 40 (1 : ℚ)) 1).totalFrames) ∧
      ((true : Bool) = true → ∀ mel < kMelBands,
        (((workingPair ⟨List.replicate 40 (1 : ℚ), 1⟩ kWindowFrames true).1.drop
            (mel * (workingPair ⟨List.replicate 40 (1 : ℚ), 1⟩ kWindowFrames true).2)).take
          ((workingPair ⟨List.replicate 40 (1 : ℚ), 1⟩ kWindowFrames true).2)) =
        List.replicate 128 0 ++ melBand ⟨List.replicate 40 (1 : ℚ), 1⟩ mel ++
          List.replicate 128 0) ∧
      ((true : Bool) = false →
        (FeatureTensor.mk (List.replicate 40 (1 : ℚ)) 1).totalFrames < kWindowFrames →
        ∀ mel < kMelBands,
        (((workingPair ⟨List.replicate 40 (1 : ℚ), 1⟩ kWindowFrames true).1.drop
            (mel * (workingPair ⟨List.replicate 40 (1 : ℚ), 1⟩ kWindowFrames true).2)).take
          ((workingPair ⟨List.replicate 40 (1 : ℚ), 1⟩ kWindowFrames true).2)) =
        melBand ⟨List.replicate 40 (1 : ℚ), 1⟩ mel ++
          List.replicate (kWindowFrames -
            (FeatureTensor.mk (List.replicate 40 (1 : ℚ)) 1).totalFrames) 0) ∧
      (∀ wi < (toSlidingWindows ⟨List.replicate 40 (1 : ℚ), 1⟩ kWindowFrames
          kLocalHopFrames true).numWindows,
        ∀ mel < kMelBands,
        (((toSlidingWindows ⟨List.replicate 40 (1 : ℚ), 1⟩ kWindowFrames kLocalHopFrames
              true).data.drop ((wi * kMelBands + mel) * kWindowFrames)).take
          kWindowFrames) =
        (((workingPair ⟨List.replicate 40 (1 : ℚ), 1⟩ kWindowFrames true).1.drop
            (mel * (workingPair ⟨List.replicate 40 (1 : ℚ), 1⟩ kWindowFrames true).2 +
              wi * safeHopOf kLocalHopFrames)).take kWindowFrames)) ∧
      ((true : Bool) = false →
        (FeatureTensor.mk (List.replicate 40 (1 : ℚ)) 1).totalFrames < kWindowFrames →
        (toSlidingWindows ⟨List.replicate 40 (1 : ℚ), 1⟩ kWindowFrames kLocalHopFrames
          true).numWindows = 1)) :=
  ⟨⟨by decide, by decide⟩,
    toSlidingWindows_spec ⟨List.replicate 40 (1 : ℚ), 1⟩ kLocalHopFrames true
      (by decide) (by decide)⟩

/-! ## NeuralNote core: TranscriptionIO.cpp and cli/main.cpp (claims C8, C10) -/

/-- `Notes::Event`.  Modelled from the spec: `Notes.h` is not part of the
source tree; the spec's NoteEvent tuple is
`{startTime, endTime, pitchMidi, amplitude, optional pitchBends}` and
`toCoreEvents` (TranscriptionIO.cpp lines 9-24) reads exactly the fields
`startTime`, `endTime`, `pitch`, `amplitude`. -/
structure NotesEvent where
  startTime : ℚ
  endTime : ℚ
  pitch : ℤ
  amplitude : ℚ
  bends : List ℤ
  deriving DecidableEq

/-- `CoreNoteEvent` (TranscriptionIO.h). -/
structure CoreNoteEvent where
  startTimeSeconds : ℚ
  durationSeconds : ℚ
  pitchMidi : ℤ
  amplitude : ℚ
  deriving DecidableEq

/-- `toCoreEvents` (TranscriptionIO.cpp lines 9-24): one output per input, in
order; `durationSeconds = std::max(0.0, endTime - startTime)`. -/
def toCoreEvents (events : List NotesEvent) : List CoreNoteEvent :=
  events.map (fun event =>
    { startTimeSeconds := event.startTime
      durationSeconds := max 0 (event.endTime - event.startTime)
      pitchMidi := event.pitch
      amplitude := event.amplitude })

/-- C10: `toCoreEvents` preserves length and order, copies start time, pitch
and amplitude unchanged, sets `durationSeconds = max(0, endTime - startTime)`,
and therefore every serialized duration is non-negative. -/
theorem toCoreEvents_spec (events : List NotesEvent) :
    (toCoreEvents events).length = events.length ∧
    (∀ i, i < events.length →
      (toCoreEvents events).getD i ⟨0, 0, 0, 0⟩ =
        { startTimeSeconds := (events.getD i ⟨0, 0, 0, 0, []⟩).startTime
          durationSeconds := max 0 ((events.getD i ⟨0, 0, 0, 0, []⟩).endTime -
            (events.getD i ⟨0, 0, 0, 0, []⟩).startTime)
          pitchMidi := (events.getD i ⟨0, 0, 0, 0, []⟩).pitch
          amplitude := (events.getD i ⟨0, 0, 0, 0, []⟩).amplitude }) ∧
    (∀ e ∈ toCoreEvents events, 0 ≤ e.durationSeconds) := by
  refine ⟨by simp [toCoreEvents], ?_, ?_⟩
  · intro i hi
    unfold toCoreEvents
    rw [List.getD_eq_getElem?_getD, List.getElem?_map]
    rw [List.getD_eq_getElem?_getD, List.getElem?_eq_getElem hi]
    simp
  · intro e he
    unfold toCoreEvents at he
    obtain ⟨a, _, rfl⟩ := List.mem_map.mp he
    exact le_max_left _ _

/-- Witness for `toCoreEvents_spec` at a single event whose end time precedes
its start time (duration clamps to 0). -/
theorem toCoreEvents_spec_witness :
    (toCoreEvents [⟨2, 1, 60, 1, []⟩]).length = [(⟨2, 1, 60, 1, []⟩ : NotesEvent)].length ∧
    (∀ i, i < [(⟨2, 1, 60, 1, []⟩ : NotesEvent)].length →
      (toCoreEvents [⟨2, 1, 60, 1, []⟩]).getD i ⟨0, 0, 0, 0⟩ =
        { startTimeSeconds :=
            ([(⟨2, 1, 60, 1, []⟩ : NotesEvent)].getD i ⟨0, 0, 0, 0, []⟩).startTime
          durationSeconds := max 0
            (([(⟨2, 1, 60, 1, []⟩ : NotesEvent)].getD i ⟨0, 0, 0, 0, []⟩).endTime -
              ([(⟨2, 1, 60, 1, []⟩ : NotesEvent)].getD i ⟨0, 0, 0, 0, []⟩).startTime)
          pitchMidi := ([(⟨2, 1, 60, 1, []⟩ : NotesEvent)].getD i ⟨0, 0, 0, 0, []⟩).pitch
          amplitude :=
            ([(⟨2, 1, 60, 1, []⟩ : NotesEvent)].getD i ⟨0, 0, 0, 0, []⟩).amplitude }) ∧
    (∀ e ∈ toCoreEvents [⟨2, 1, 60, 1, []⟩], 0 ≤ e.durationSeconds) :=
  toCoreEvents_spec [⟨2, 1, 60, 1, []⟩]

/-- Error message of `readFloat32LeFile` for a missing/invalid-size file
(TranscriptionIO.cpp line 40). -/
def pcmInvalidSizeMsg : String := "PCM file has invalid size"

/-- Error message of the notes CLI for a successfully-read but empty sample
buffer (cli/main.cpp line 250). -/
def inputEmptyMsg : String := "Input audio is empty"

/-- `readFloat32LeFile` (TranscriptionIO.cpp lines 26-52) on an existing file
with the given bytes: `size <= 0 || size % 4 != 0` fails with
"PCM file has invalid size"; otherwise `size/4` float samples are read.  Only
the byte count decides the control flow modelled here. -/
def readFloat32LeFile (fileBytes : List ℕ) : Except String ℕ :=
  if fileBytes.length = 0 ∨ fileBytes.length % 4 ≠ 0 then Except.error pcmInvalidSizeMsg
  else Except.ok (fileBytes.length / 4)

/-- The input-reading stage of the notes CLI (cli/main.cpp lines 233-252):
a reader error prints it to stderr and exits 1; an empty sample buffer prints
"Input audio is empty" and exits 1; otherwise the pipeline proceeds with the
samples. -/
def cliPcmStage (fileBytes : List ℕ) : Except (ℕ × String) ℕ :=
  match readFloat32LeFile fileBytes with
  | Except.error e => Except.error (1, e)
  | Except.ok samples =>
    if samples = 0 then Except.error (1, inputEmptyMsg) else Except.ok samples

/-- C8 counterexample: for an existing zero-byte PCM file the notes CLI exits
with code 1, but its stderr line is "PCM file has invalid size" — the reader's
invalid-size path, reached before the "Input audio is empty" check — and does
not contain the substring "empty". -/
theorem emptyPcmFile_stderr_cex :
    cliPcmStage [] = Except.error (1, pcmInvalidSizeMsg) ∧
    ¬ (inputEmptyMsg.data <:+: pcmInvalidSizeMsg.data) ∧
    ¬ (("empty" : String).data <:+: pcmInvalidSizeMsg.data) := by
  refine ⟨by rfl, by decide, by decide⟩

/-- C8 amended: a zero-byte PCM file makes the notes CLI exit 1 with stderr
"PCM file has invalid size" (the size check rejects the file before the
empty-buffer message can be produced). -/
theorem emptyPcmFile_exit1 (fileBytes : List ℕ) (hempty : fileBytes = []) :
    cliPcmStage fileBytes = Except.error (1, pcmInvalidSizeMsg) := by
  subst hempty
  rfl

/-- Witness for `emptyPcmFile_exit1` at the empty byte list. -/
theorem emptyPcmFile_exit1_witness :
    ([] : List ℕ) = [] ∧ cliPcmStage [] = Except.error (1, pcmInvalidSizeMsg) :=
  ⟨rfl, emptyPcmFile_exit1 [] rfl⟩

/-! ## BasicPitchCNN.cpp: circular buffers (claim C2) -/

/-- Modelled from the spec: `BasicPitchConstants.h` is not in the source tree;
the spec fixes 8 harmonics (harmonic stacking). -/
def NUM_HARMONICS : ℕ := 8

/-- Modelled from the spec: contour row width 264 (`freq_bins`). -/
def NUM_FREQ_IN : ℕ := 264

/-- Modelled from the spec: note/onset row width 88. -/
def NUM_FREQ_OUT : ℕ := 88

/-- One circular buffer of `BasicPitchCNN`: a fixed array of rows plus a head
index.  The depth is the length of `buf`. -/
structure RingBuffer where
  buf : List (List ℚ)
  headIdx : ℕ
  deriving DecidableEq

/-- `BasicPitchCNN::reset` for one buffer (BasicPitchCNN.cpp lines 34-57):
all rows zero-filled, head index 0. -/
def ringReset (depth width : ℕ) : RingBuffer :=
  ⟨List.replicate depth (List.replicate width 0), 0⟩

/-- One frame inference on one circular buffer, as performed by
`_runModels`/`frameInference`/`_concat` (BasicPitchCNN.cpp lines 65-134): the
fresh row `v` is stored at the head slot, the row at `_wrapIndex(head+1,
depth)` is read back, and the head advances by one with wrap-around
(`head == depth-1 ? 0 : head+1`, line 88-90). -/
def ringStep (r : RingBuffer) (v : List ℚ) (zeroRow : List ℚ) : List ℚ × RingBuffer :=
  let written := r.buf.set r.headIdx v
  (written.getD ((r.headIdx + 1) % written.length) zeroRow,
    ⟨written, if r.headIdx = written.length - 1 then 0 else r.headIdx + 1⟩)

/-- The buffer after `t` frame inferences whose fresh rows are `v 0, ...,
v (t-1)`. -/
def ringIter (depth width : ℕ) (v : ℕ → List ℚ) : ℕ → RingBuffer
  | 0 => ringReset depth width
  | t + 1 => (ringStep (ringIter depth width v t) (v t) (List.replicate width 0)).2

/-- The row read back during frame inference `t` (`t` inferences already ran
since the reset). -/
def ringRead (depth width : ℕ) (v : ℕ → List ℚ) (t : ℕ) : List ℚ :=
  (ringStep (ringIter depth width v t) (v t) (List.replicate width 0)).1

lemma ringIter_buf_length (depth width : ℕ) (v : ℕ → List ℚ) (t : ℕ) :
    (ringIter depth width v t).buf.length = depth := by
  induction t with
  | zero => simp [ringIter, ringReset]
  | succ t ih => simp [ringIter, ringStep, ih]

lemma succ_mod_ring (t d : ℕ) (hd : 1 ≤ d) :
    (t + 1) % d = if t % d = d - 1 then 0 else t % d + 1 := by
  have hmod : t % d < d := Nat.mod_lt _ (by omega)
  have hdm := Nat.div_add_mod t d
  split
  · rename_i heq
    have h2 : d * (t / d + 1) = d * (t / d) + d := by ring
    have h1 : t + 1 = d * (t / d + 1) := by omega
    rw [h1, Nat.mul_mod_right]
  · rename_i hne
    have h1 : t + 1 = d * (t / d) + (t % d + 1) := by omega
    rw [h1, Nat.mul_add_mod]
    exact Nat.mod_eq_of_lt (by omega)

lemma ringIter_head (depth width : ℕ) (hd : 1 ≤ depth) (v : ℕ → List ℚ) (t : ℕ) :
    (ringIter depth width v t).headIdx = t % depth := by
  induction t with
  | zero => simp [ringIter, ringReset]
  | succ t ih =>
    show (if (ringIter depth width v t).headIdx =
        ((ringIter depth width v t).buf.set (ringIter depth width v t).headIdx (v t)).length - 1
      then 0 else (ringIter depth width v t).headIdx + 1) = (t + 1) % depth
    rw [List.length_set, ringIter_buf_length, ih, succ_mod_ring t depth hd]

/-- Buffer content invariant: after `t` inferences, each slot holds the most
recent row written to it, and slots never written still hold the reset zero
fill.  The slots written in the last `min t depth` inferences are exactly the
slots `(t-1-a) % depth` for `a < min t depth`. -/
lemma ringIter_recent (depth width : ℕ) (hd : 1 ≤ depth) (v : ℕ → List ℚ) (t : ℕ) :
    (∀ a, a < min t depth →
      (ringIter depth width v t).buf.getD ((t - 1 - a) % depth) (List.replicate width 0) =
        v (t - 1 - a)) ∧
    (∀ s, s < depth → t ≤ s →
      (ringIter depth width v t).buf.getD s (List.replicate width 0) =
        List.replicate width 0) := by
  induction t with
  | zero =>
    refine ⟨by omega, ?_⟩
    intro s hs _
    simp [ringIter, ringReset, List.getD_eq_getElem?_getD, List.getElem?_replicate, hs]
  | succ t ih =>
    have hlen := ringIter_buf_length depth width v t
    have hhead := ringIter_head depth width hd v t
    have hmod : t % depth < depth := Nat.mod_lt _ (by omega)
    have hstep : (ringIter depth width v (t + 1)).buf =
        (ringIter depth width v t).buf.set (t % depth) (v t) := by
      show ((ringIter depth width v t).buf.set (ringIter depth width v t).headIdx (v t)) = _
      rw [hhead]
    constructor
    · intro a ha
      rw [hstep]
      rcases Nat.eq_zero_or_pos a with rfl | hpos
      · have h1 : t + 1 - 1 - 0 = t := by omega
        rw [h1]
        rw [List.getD_eq_getElem?_getD, List.getElem?_set_self (by omega), Option.getD_some]
      · have hne : (t + 1 - 1 - a) % depth ≠ t % depth := by
          intro heq
          have h1 : t - a ≤ t := by omega
          have h2 : (t - a) % depth = t % depth := by
            have : t + 1 - 1 - a = t - a := by omega
            rw [this] at heq
            exact heq
          have h3 : depth ∣ t - (t - a) := (Nat.modEq_iff_dvd' h1).mp h2
          have h4 : t - (t - a) = a := by omega
          rw [h4] at h3
          have h5 : depth ≤ a := Nat.le_of_dvd (by omega) h3
          omega
        rw [List.getD_eq_getElem?_getD, List.getElem?_set_ne hne.symm,
          ← List.getD_eq_getElem?_getD]
        have h6 : t + 1 - 1 - a = t - 1 - (a - 1) := by omega
        rw [h6]
        exact (ih.1) (a - 1) (by omega)
    · intro s hs hts
      rw [hstep]
      have hne : s ≠ t % depth := by
        have : t % depth = t := Nat.mod_eq_of_lt (by omega)
        omega
      rw [List.getD_eq_getElem?_getD, List.getElem?_set_ne hne.symm,
        ← List.getD_eq_getElem?_getD]
      exact ih.2 s hs (by omega)

/-- The value read back at frame inference `t` from a depth-`d` ring: the row
stored `d-1` inferences earlier, or the reset zero fill when fewer than `d-1`
inferences have run. -/
lemma ringRead_eq (depth width : ℕ) (hd : 1 ≤ depth) (v : ℕ → List ℚ) (t : ℕ) :
    ringRead depth width v t =
      if depth - 1 ≤ t then v (t - (depth - 1)) else List.replicate width 0 := by
  unfold ringRead ringStep
  have hlen := ringIter_buf_length depth width v t
  have hhead := ringIter_head depth width hd v t
  dsimp only
  rw [List.length_set, hlen, hhead, Nat.mod_add_mod]
  have hbufstep : (ringIter depth width v t).buf.set ((ringIter depth width v t).headIdx) (v t) =
      (ringIter depth width v (t + 1)).buf := by
    show _ = (ringStep (ringIter depth width v t) (v t) (List.replicate width 0)).2.buf
    unfold ringStep
    rfl
  rw [hhead] at hbufstep
  rw [hbufstep]
  have hrec := ringIter_recent depth width hd v (t + 1)
  split
  · rename_i hle
    have ha : depth - 1 < min (t + 1) depth := by omega
    have h1 := hrec.1 (depth - 1) ha
    have h2 : t + 1 - 1 - (depth - 1) = t - (depth - 1) := by omega
    rw [h2] at h1
    have h3 : (t - (depth - 1)) % depth = (t + 1) % depth := by
      have h4 : t - (depth - 1) + depth = t + 1 + depth - depth + ((depth - 1) - (depth - 1)) := by
        omega
      have h5 : (t - (depth - 1)) + 1 * depth = t + 1 := by omega
      calc (t - (depth - 1)) % depth = ((t - (depth - 1)) + 1 * depth) % depth :=
            (Nat.add_mul_mod_self_right _ 1 _).symm
        _ = (t + 1) % depth := by rw [h5]
    rw [← h3, h1]
  · rename_i hlt
    have hsmall : (t + 1) % depth = t + 1 := Nat.mod_eq_of_lt (by omega)
    rw [hsmall]
    exact hrec.2 (t + 1) (by omega) le_rfl

/-- The three circular buffers of `BasicPitchCNN` (BasicPitchCNN.h is not in
the source tree; the spec names the buffers and their roles, and
BasicPitchCNN.cpp uses them via `mContoursCircularBuffer` /
`mNotesCircularBuffer` / `mConcat2CircularBuffer`).  The depths `d_c`, `d_n`,
`d_o` are model-derived constants the spec says not to guess; every statement
below is proved for all depths ≥ 1. -/
structure CNNState where
  contourBuf : RingBuffer
  noteBuf : RingBuffer
  concat2Buf : RingBuffer
  deriving DecidableEq

/-- `BasicPitchCNN::reset` (BasicPitchCNN.cpp lines 34-58): all three rings
zero-filled, all head indices 0. -/
def cnnReset (dc dn do_ : ℕ) : CNNState :=
  ⟨ringReset dc NUM_FREQ_IN, ringReset dn NUM_FREQ_OUT, ringReset do_ (32 * NUM_FREQ_OUT)⟩

/-- `BasicPitchCNN::frameInference` (BasicPitchCNN.cpp lines 65-134) at call
`t`, with the four sub-networks abstracted: each is a deterministic module
invoked exactly once per frame in a fixed order, so its fresh output at call
`t` is modelled as an arbitrary sequence — `c t` (ContourNet, stored in the
contour ring), `n t` (NoteNet, stored in the note ring) and `k t`
(OnsetInputNet, stored in the concat2 ring).  `_runModels` stores each fresh
row at its ring's head; `frameInference` copies the contour/note rows at
`_wrapIndex(head+1, depth)` into the outputs and `_concat` reads the concat2
ring at the same wrapped index; then all three heads advance by one. -/
def frameInference (c n k : ℕ → List ℚ) (t : ℕ) (s : CNNState) :
    (List ℚ × List ℚ × List ℚ) × CNNState :=
  let concatStep := ringStep s.concat2Buf (k t) (List.replicate (32 * NUM_FREQ_OUT) 0)
  let contourStep := ringStep s.contourBuf (c t) (List.replicate NUM_FREQ_IN 0)
  let noteStep := ringStep s.noteBuf (n t) (List.replicate NUM_FREQ_OUT 0)
  ((contourStep.1, noteStep.1, concatStep.1), ⟨contourStep.2, noteStep.2, concatStep.2⟩)

/-- The CNN state after `t` frame inferences since a reset. -/
def cnnRun (dc dn do_ : ℕ) (c n k : ℕ → List ℚ) : ℕ → CNNState
  | 0 => cnnReset dc dn do_
  | t + 1 => (frameInference c n k t (cnnRun dc dn do_ c n k t)).2

/-- The (contour, note, concat2) rows read back during frame inference `t`. -/
def cnnReads (dc dn do_ : ℕ) (c n k : ℕ → List ℚ) (t : ℕ) :
    List ℚ × List ℚ × List ℚ :=
  (frameInference c n k t (cnnRun dc dn do_ c n k t)).1

lemma cnnRun_eq (dc dn do_ : ℕ) (c n k : ℕ → List ℚ) (t : ℕ) :
    cnnRun dc dn do_ c n k t =
      ⟨ringIter dc NUM_FREQ_IN c t, ringIter dn NUM_FREQ_OUT n t,
        ringIter do_ (32 * NUM_FREQ_OUT) k t⟩ := by
  induction t with
  | zero => rfl
  | succ t ih =>
    show (frameInference c n k t (cnnRun dc dn do_ c n k t)).2 = _
    rw [ih]
    rfl

/-- C2: during frame inference `t` (that is, with `t` inferences already run
since the last reset), each of the three circular-buffer reads — taken from
the slot at `(head+1) mod depth` after the fresh row is stored — returns
exactly the row stored `depth-1` inferences earlier, or the zero fill
installed by `reset` when fewer than `depth-1` inferences have run; every head
pointer equals `t mod depth` and advances by one modulo its depth after each
inference. -/
theorem frameInference_ring_spec (dc dn do_ : ℕ) (hc : 1 ≤ dc) (hn : 1 ≤ dn)
    (ho : 1 ≤ do_) (c n k : ℕ → List ℚ) (t : ℕ) :
    cnnReads dc dn do_ c n k t =
      ((if dc - 1 ≤ t then c (t - (dc - 1)) else List.replicate NUM_FREQ_IN 0),
        (if dn - 1 ≤ t then n (t - (dn - 1)) else List.replicate NUM_FREQ_OUT 0),
        (if do_ - 1 ≤ t then k (t - (do_ - 1)) else List.replicate (32 * NUM_FREQ_OUT) 0)) ∧
    (cnnRun dc dn do_ c n k t).contourBuf.headIdx = t % dc ∧
    (cnnRun dc dn do_ c n k t).noteBuf.headIdx = t % dn ∧
    (cnnRun dc dn do_ c n k t).concat2Buf.headIdx = t % do_ ∧
    (cnnRun dc dn do_ c n k (t + 1)).contourBuf.headIdx =
      ((cnnRun dc dn do_ c n k t).contourBuf.headIdx + 1) % dc ∧
    (cnnRun dc dn do_ c n k (t + 1)).noteBuf.headIdx =
      ((cnnRun dc dn do_ c n k t).noteBuf.headIdx + 1) % dn ∧
    (cnnRun dc dn do_ c n k (t + 1)).concat2Buf.headIdx =
      ((cnnRun dc dn do_ c n k t).concat2Buf.headIdx + 1) % do_ := by
  refine ⟨?_, ?_, ?_, ?_, ?_, ?_, ?_⟩
  · show (frameInference c n k t (cnnRun dc dn do_ c n k t)).1 = _
    rw [cnnRun_eq]
    unfold frameInference
    dsimp only
    rw [show (ringStep (ringIter dc NUM_FREQ_IN c t) (c t)
        (List.replicate NUM_FREQ_IN 0)).1 = ringRead dc NUM_FREQ_IN c t from rfl]
    rw [show (ringStep (ringIter dn NUM_FREQ_OUT n t) (n t)
        (List.replicate NUM_FREQ_OUT 0)).1 = ringRead dn NUM_FREQ_OUT n t from rfl]
    rw [show (ringStep (ringIter do_ (32 * NUM_FREQ_OUT) k t) (k t)
        (List.replicate (32 * NUM_FREQ_OUT) 0)).1 =
      ringRead do_ (32 * NUM_FREQ_OUT) k t from rfl]
    rw [ringRead_eq dc NUM_FREQ_IN hc c t, ringRead_eq dn NUM_FREQ_OUT hn n t,
      ringRead_eq do_ (32 * NUM_FREQ_OUT) ho k t]
  · rw [cnnRun_eq]
    exact ringIter_head dc NUM_FREQ_IN hc c t
  · rw [cnnRun_eq]
    exact ringIter_head dn NUM_FREQ_OUT hn n t
  · rw [cnnRun_eq]
    exact ringIter_head do_ (32 * NUM_FREQ_OUT) ho k t
  · rw [cnnRun_eq, cnnRun_eq]
    dsimp only
    rw [ringIter_head dc NUM_FREQ_IN hc c t, ringIter_head dc NUM_FREQ_IN hc c (t + 1),
      Nat.mod_add_mod]
  · rw [cnnRun_eq, cnnRun_eq]
    dsimp only
    rw [ringIter_head dn NUM_FREQ_OUT hn n t, ringIter_head dn NUM_FREQ_OUT hn n (t + 1),
      Nat.mod_add_mod]
  · rw [cnnRun_eq, cnnRun_eq]
    dsimp only
    rw [ringIter_head do_ (32 * NUM_FREQ_OUT) ho k t,
      ringIter_head do_ (32 * NUM_FREQ_OUT) ho k (t + 1), Nat.mod_add_mod]

/-- Witness for `frameInference_ring_spec` with depths 3, 2, 4 at frame 5:
each read returns the row stored depth-1 frames earlier. -/
theorem frameInference_ring_spec_witness :
    ((1 : ℕ) ≤ 3 ∧ (1 : ℕ) ≤ 2 ∧ (1 : ℕ) ≤ 4) ∧
    (cnnReads 3 2 4 (fun u => [(u : ℚ)]) (fun u => [(u : ℚ) + 100])
        (fun u => [(u : ℚ) + 200]) 5 =
      ((if 3 - 1 ≤ 5 then [((5 - (3 - 1) : ℕ) : ℚ)] else List.replicate NUM_FREQ_IN 0),
        (if 2 - 1 ≤ 5 then [((5 - (2 - 1) : ℕ) : ℚ) + 100]
          else List.replicate NUM_FREQ_OUT 0),
        (if 4 - 1 ≤ 5 then [((5 - (4 - 1) : ℕ) : ℚ) + 200]
          else List.replicate (32 * NUM_FREQ_OUT) 0)) ∧
      (cnnRun 3 2 4 (fun u => [(u : ℚ)]) (fun u => [(u : ℚ) + 100])
          (fun u => [(u : ℚ) + 200]) 5).contourBuf.headIdx = 5 % 3 ∧
      (cnnRun 3 2 4 (fun u => [(u : ℚ)]) (fun u => [(u : ℚ) + 100])
          (fun u => [(u : ℚ) + 200]) 5).noteBuf.headIdx = 5 % 2 ∧
      (cnnRun 3 2 4 (fun u => [(u : ℚ)]) (fun u => [(u : ℚ) + 100])
          (fun u => [(u : ℚ) + 200]) 5).concat2Buf.headIdx = 5 % 4 ∧
      (cnnRun 3 2 4 (fun u => [(u : ℚ)]) (fun u => [(u : ℚ) + 100])
          (fun u => [(u : ℚ) + 200]) (5 + 1)).contourBuf.headIdx =
        ((cnnRun 3 2 4 (fun u => [(u : ℚ)]) (fun u => [(u : ℚ) + 100])
            (fun u => [(u : ℚ) + 200]) 5).contourBuf.headIdx + 1) % 3 ∧
      (cnnRun 3 2 4 (fun u => [(u : ℚ)]) (fun u => [(u : ℚ) + 100])
          (fun u => [(u : ℚ) + 200]) (5 + 1)).noteBuf.headIdx =
        ((cnnRun 3 2 4 (fun u => [(u : ℚ)]) (fun u => [(u : ℚ) + 100])
            (fun u => [(u : ℚ) + 200]) 5).noteBuf.headIdx + 1) % 2 ∧
      (cnnRun 3 2 4 (fun u => [(u : ℚ)]) (fun u => [(u : ℚ) + 100])
          (fun u => [(u : ℚ) + 200]) (5 + 1)).concat2Buf.headIdx =
        ((cnnRun 3 2 4 (fun u => [(u : ℚ)]) (fun u => [(u : ℚ) + 100])
            (fun u => [(u : ℚ) + 200]) 5).concat2Buf.headIdx + 1) % 4) :=
  ⟨⟨by decide, by decide, by decide⟩,
    frameInference_ring_spec 3 2 4 (by decide) (by decide) (by decide)
      (fun u => [(u : ℚ)]) (fun u => [(u : ℚ) + 100]) (fun u => [(u : ℚ) + 200]) 5⟩

/-! ## BasicPitch.cpp: streaming transcription schedule (claims C1, C9) -/

/-- The all-zero CQT frame fed during warmup and tail flush (BasicPitch.cpp
line 115). -/
def zeroStackedCqt : List ℚ := List.replicate (NUM_HARMONICS * NUM_FREQ_IN) 0

/-- The three posteriorgrams (`mContoursPG`, `mNotesPG`, `mOnsetsPG`) as lists
of rows. -/
structure PGs where
  contours : List (List ℚ)
  notes : List (List ℚ)
  onsets : List (List ℚ)
  deriving DecidableEq

/-- `std::vector::resize(len, zeroRow)` (BasicPitch.cpp lines 95-97): keeps
the first `len` existing rows and appends zero rows up to `len`. -/
def resizePG (rows : List (List ℚ)) (len width : ℕ) : List (List ℚ) :=
  rows.take len ++ List.replicate (len - rows.length) (List.replicate width 0)

/-- One `frameInference` call writes its three output rows into row `i` of the
three posteriorgrams (the out-parameters `mContoursPG[i]`, `mNotesPG[i]`,
`mOnsetsPG[i]`). -/
def setRow (p : PGs) (i : ℕ) (out : List ℚ × List ℚ × List ℚ) : PGs :=
  ⟨p.contours.set i out.1, p.notes.set i out.2.1, p.onsets.set i out.2.2⟩

/-- One loop of `BasicPitch::transcribeToMIDI`: for each `f` in `frames`, feed
input `inp f` to the CNN (`inf` is the whole `frameInference` step on the
abstract CNN state `S`) and write the three outputs into row `tgt f`. -/
def runPhase {S : Type} (inf : S → List ℚ → S × (List ℚ × List ℚ × List ℚ))
    (inp : ℕ → List ℚ) (tgt : ℕ → ℕ) (frames : List ℕ) (sp : S × PGs) : S × PGs :=
  frames.foldl (fun sp f =>
    ((inf sp.1 (inp f)).1, setRow sp.2 (tgt f) (inf sp.1 (inp f)).2)) sp

/-- `BasicPitch::transcribeToMIDI` (BasicPitch.cpp lines 80-185) for a clip of
`N` CQT frames and lookahead `L`, starting from the freshly reset CNN state
`s0` (the source resets the CNN right after resizing the posteriorgrams):
1. zero warmup — `L` frames of zero CQT, outputs into scratch row 0;
2. CQT warmup — CQT frames `0..L-1`, outputs into scratch row 0;
3. streaming — CQT frames `L..N-1`, outputs into rows `frameIdx - L`;
4. tail flush — `L` frames of zero CQT at indices `N..N+L-1`, outputs into
   rows `frameIdx - L` = `N-L..N-1`. -/
def transcribeToMIDI {S : Type} (inf : S → List ℚ → S × (List ℚ × List ℚ × List ℚ))
    (s0 : S) (cqt : ℕ → List ℚ) (N L : ℕ) (prior : PGs) : S × PGs :=
  runPhase inf (fun _ => zeroStackedCqt) (fun f => f - L) (List.range' N L)
    (runPhase inf cqt (fun f => f - L) (List.range' L (N - L))
      (runPhase inf cqt (fun _ => 0) (List.range L)
        (runPhase inf (fun _ => zeroStackedCqt) (fun _ => 0) (List.range L)
          (s0,
            ⟨resizePG prior.contours N NUM_FREQ_IN,
              resizePG prior.notes N NUM_FREQ_OUT,
              resizePG prior.onsets N NUM_FREQ_OUT⟩))))

/-- The input fed at global call index `t` (calls are counted from the reset):
calls `0..L-1` are the zero warmup, calls `L..N+L-1` feed CQT frames
`0..N-1` (warmup-CQT then streaming), calls `N+L..N+2L-1` are the zero tail
flush. -/
def schedInput (cqt : ℕ → List ℚ) (N L t : ℕ) : List ℚ :=
  if t < L then zeroStackedCqt
  else if t < N + L then cqt (t - L)
  else zeroStackedCqt

/-- The CNN state before global call `t`. -/
def callState {S : Type} (inf : S → List ℚ → S × (List ℚ × List ℚ × List ℚ))
    (s0 : S) (cqt : ℕ → List ℚ) (N L : ℕ) : ℕ → S
  | 0 => s0
  | t + 1 => (inf (callState inf s0 cqt N L t) (schedInput cqt N L t)).1

/-- The three rows produced by global call `t`. -/
def callOut {S : Type} (inf : S → List ℚ → S × (List ℚ × List ℚ × List ℚ))
    (s0 : S) (cqt : ℕ → List ℚ) (N L : ℕ) (t : ℕ) : List ℚ × List ℚ × List ℚ :=
  (inf (callState inf s0 cqt N L t) (schedInput cqt N L t)).2

lemma resizePG_length (rows : List (List ℚ)) (len width : ℕ) :
    (resizePG rows len width).length = len := by
  unfold resizePG
  simp only [List.length_append, List.length_take, List.length_replicate]
  omega

lemma runPhase_state {S : Type} (inf : S → List ℚ → S × (List ℚ × List ℚ × List ℚ))
    (inp : ℕ → List ℚ) (tgt : ℕ → ℕ) (cqt : ℕ → List ℚ) (N L s0off : ℕ) (s0 : S) :
    ∀ (m a : ℕ) (p : PGs),
      (∀ f, a ≤ f → f < a + m → inp f = schedInput cqt N L (f + s0off)) →
      (runPhase inf inp tgt (List.range' a m)
          (callState inf s0 cqt N L (a + s0off), p)).1 =
        callState inf s0 cqt N L (a + m + s0off) := by
  intro m
  induction m with
  | zero =>
    intro a p _
    simp [runPhase]
  | succ m ih =>
    intro a p hinp
    rw [List.range'_succ]
    show (runPhase inf inp tgt (List.range' (a + 1) m)
        ((inf (callState inf s0 cqt N L (a + s0off)) (inp a)).1, _)).1 = _
    rw [hinp a le_rfl (by omega)]
    have hstep : (inf (callState inf s0 cqt N L (a + s0off))
        (schedInput cqt N L (a + s0off))).1 = callState inf s0 cqt N L (a + s0off + 1) := rfl
    rw [hstep]
    have harith : a + s0off + 1 = (a + 1) + s0off := by omega
    rw [harith]
    rw [ih (a + 1) _ (fun f hf1 hf2 => hinp f (by omega) (by omega))]
    congr 1
    omega

lemma runPhase_lengths {S : Type} (inf : S → List ℚ → S × (List ℚ × List ℚ × List ℚ))
    (inp : ℕ → List ℚ) (tgt : ℕ → ℕ) :
    ∀ (frames : List ℕ) (sp : S × PGs),
      ((runPhase inf inp tgt frames sp).2.contours.length = sp.2.contours.length ∧
       (runPhase inf inp tgt frames sp).2.notes.length = sp.2.notes.length ∧
       (runPhase inf inp tgt frames sp).2.onsets.length = sp.2.onsets.length) := by
  intro frames
  induction frames with
  | nil => intro sp; exact ⟨rfl, rfl, rfl⟩
  | cons f tl ih =>
    intro sp
    have h := ih ((inf sp.1 (inp f)).1, setRow sp.2 (tgt f) (inf sp.1 (inp f)).2)
    unfold runPhase at h ⊢
    rw [List.foldl_cons]
    refine ⟨?_, ?_, ?_⟩
    · rw [h.1]; simp [setRow]
    · rw [h.2.1]; simp [setRow]
    · rw [h.2.2]; simp [setRow]

/-- Row characterization of the streaming/tail-flush loops: folding frames
`a..a+m-1` (all ≥ L) with write target `f - L`, starting from the state
reached before call `a + L`, sets row `r` to the output of call `r + 2L` for
`r ∈ [a-L, a+m-L)` and leaves every other row unchanged. -/
lemma runPhase_rows {S : Type} (inf : S → List ℚ → S × (List ℚ × List ℚ × List ℚ))
    (inp : ℕ → List ℚ) (cqt : ℕ → List ℚ) (N L : ℕ) (s0 : S) :
    ∀ (m a : ℕ) (p : PGs),
      L ≤ a →
      a + m ≤ N + L →
      p.contours.length = N → p.notes.length = N → p.onsets.length = N →
      (∀ f, a ≤ f → f < a + m → inp f = schedInput cqt N L (f + L)) →
      ∀ (r : ℕ) (dflt : List ℚ),
        ((runPhase inf inp (fun f => f - L) (List.range' a m)
            (callState inf s0 cqt N L (a + L), p)).2.contours.getD r dflt =
          (if a - L ≤ r ∧ r < a + m - L then (callOut inf s0 cqt N L (r + 2 * L)).1
           else p.contours.getD r dflt)) ∧
        ((runPhase inf inp (fun f => f - L) (List.range' a m)
            (callState inf s0 cqt N L (a + L), p)).2.notes.getD r dflt =
          (if a - L ≤ r ∧ r < a + m - L then (callOut inf s0 cqt N L (r + 2 * L)).2.1
           else p.notes.getD r dflt)) ∧
        ((runPhase inf inp (fun f => f - L) (List.range' a m)
            (callState inf s0 cqt N L (a + L), p)).2.onsets.getD r dflt =
          (if a - L ≤ r ∧ r < a + m - L then (callOut inf s0 cqt N L (r + 2 * L)).2.2
           else p.onsets.getD r dflt)) := by
  intro m
  induction m with
  | zero =>
    intro a p _ _ _ _ _ _ r dflt
    have hm : ¬ (a - L ≤ r ∧ r < a + 0 - L) := by omega
    rw [if_neg hm, if_neg hm, if_neg hm]
    exact ⟨rfl, rfl, rfl⟩
  | succ m ih =>
    intro a p ha ham hc hn ho hinp r dflt
    rw [List.range'_succ]
    have hout : (inf (callState inf s0 cqt N L (a + L)) (inp a)).2 =
        callOut inf s0 cqt N L (a + L) := by
      rw [hinp a le_rfl (by omega)]
      rfl
    have hstate : (inf (callState inf s0 cqt N L (a + L)) (inp a)).1 =
        callState inf s0 cqt N L ((a + 1) + L) := by
      rw [hinp a le_rfl (by omega)]
      show (inf (callState inf s0 cqt N L (a + L)) (schedInput cqt N L (a + L))).1 = _
      have : (a + 1) + L = (a + L) + 1 := by omega
      rw [this]
      rfl
    have hstep2 : runPhase inf inp (fun f => f - L) (a :: List.range' (a + 1) m)
        (callState inf s0 cqt N L (a + L), p) =
      runPhase inf inp (fun f => f - L) (List.range' (a + 1) m)
        (callState inf s0 cqt N L ((a + 1) + L),
          setRow p (a - L) (callOut inf s0 cqt N L (a + L))) := by
      unfold runPhase
      rw [List.foldl_cons]
      congr 1
      show ((inf (callState inf s0 cqt N L (a + L)) (inp a)).1,
        setRow p (a - L) ((inf (callState inf s0 cqt N L (a + L)) (inp a)).2)) = _
      rw [hstate, hout]
    rw [hstep2]
    set p2 := setRow p (a - L) (callOut inf s0 cqt N L (a + L)) with hp2
    have hc2 : p2.contours.length = N := by rw [hp2]; simp [setRow, hc]
    have hn2 : p2.notes.length = N := by rw [hp2]; simp [setRow, hn]
    have ho2 : p2.onsets.length = N := by rw [hp2]; simp [setRow, ho]
    have hih := ih (a + 1) p2 (by omega) (by omega) hc2 hn2 ho2
      (fun f hf1 hf2 => hinp f (by omega) (by omega)) r dflt
    refine ⟨?_, ?_, ?_⟩
    · rw [hih.1]
      by_cases hr1 : a + 1 - L ≤ r ∧ r < a + 1 + m - L
      · rw [if_pos hr1, if_pos (by omega)]
      · rw [if_neg hr1]
        by_cases hr2 : r = a - L
        · subst hr2
          rw [if_pos (by omega)]
          rw [hp2]
          show (p.contours.set (a - L) (callOut inf s0 cqt N L (a + L)).1).getD (a - L) dflt = _
          rw [List.getD_eq_getElem?_getD, List.getElem?_set_self (by omega),
            Option.getD_some]
          have harw : a - L + 2 * L = a + L := by omega
          rw [harw]
        · rw [if_neg (by omega), hp2]
          show (p.contours.set (a - L) (callOut inf s0 cqt N L (a + L)).1).getD r dflt = _
          rw [List.getD_eq_getElem?_getD, List.getElem?_set_ne (by omega),
            ← List.getD_eq_getElem?_getD]
    · rw [hih.2.1]
      by_cases hr1 : a + 1 - L ≤ r ∧ r < a + 1 + m - L
      · rw [if_pos hr1, if_pos (by omega)]
      · rw [if_neg hr1]
        by_cases hr2 : r = a - L
        · subst hr2
          rw [if_pos (by omega)]
          rw [hp2]
          show (p.notes.set (a - L) (callOut inf s0 cqt N L (a + L)).2.1).getD (a - L) dflt = _
          rw [List.getD_eq_getElem?_getD, List.getElem?_set_self (by omega),
            Option.getD_some]
          have harw : a - L + 2 * L = a + L := by omega
          rw [harw]
        · rw [if_neg (by omega), hp2]
          show (p.notes.set (a - L) (callOut inf s0 cqt N L (a + L)).2.1).getD r dflt = _
          rw [List.getD_eq_getElem?_getD, List.getElem?_set_ne (by omega),
            ← List.getD_eq_getElem?_getD]
    · rw [hih.2.2]
      by_cases hr1 : a + 1 - L ≤ r ∧ r < a + 1 + m - L
      · rw [if_pos hr1, if_pos (by omega)]
      · rw [if_neg hr1]
        by_cases hr2 : r = a - L
        · subst hr2
          rw [if_pos (by omega)]
          rw [hp2]
          show (p.onsets.set (a - L) (callOut inf s0 cqt N L (a + L)).2.2).getD (a - L) dflt = _
          rw [List.getD_eq_getElem?_getD, List.getElem?_set_self (by omega),
            Option.getD_some]
          have harw : a - L + 2 * L = a + L := by omega
          rw [harw]
        · rw [if_neg (by omega), hp2]
          show (p.onsets.set (a - L) (callOut inf s0 cqt N L (a + L)).2.2).getD r dflt = _
          rw [List.getD_eq_getElem?_getD, List.getElem?_set_ne (by omega),
            ← List.getD_eq_getElem?_getD]

lemma map_sub_range' (c : ℕ) :
    ∀ (k a : ℕ), c ≤ a →
      (List.range' a k).map (fun f => f - c) = List.range' (a - c) k := by
  intro k
  induction k with
  | zero => intro a _; rfl
  | succ k ih =>
    intro a ha
    rw [List.range'_succ, List.range'_succ, List.map_cons, ih (a + 1) (by omega)]
    have : a + 1 - c = (a - c) + 1 := by omega
    rw [this]

/-- The rows written during the streaming and tail-flush phases, in order:
exactly `0, 1, ..., N-1`, each exactly once. -/
lemma streamTail_targets (N L : ℕ) (h : L ≤ N) :
    (List.range' L (N - L)).map (fun f => f - L) ++
        (List.range' N L).map (fun f => f - L) = List.range N := by
  rw [map_sub_range' L (N - L) L le_rfl, map_sub_range' L L N h]
  have h1 : L - L = 0 := by omega
  rw [h1]
  have hap := List.range'_append_1 0 (N - L) L
  rw [Nat.zero_add] at hap
  rw [hap, List.range_eq_range']
  congr 1
  omega

/-- C1: for a clip of `N` CQT frames and lookahead `L ≤ N`, the four-phase
schedule leaves all three posteriorgrams with exactly `N` rows; row `r` holds
the outputs of global inference call `r + 2L` — the call running `L` steps
after CQT frame `r + L` was fed, i.e. the call whose lookahead-aligned output
corresponds to feature frame `r` — where the call that writes row `r` feeds
CQT frame `r + L` during streaming and zero CQT during the tail flush
(`r + L ≥ N`); and the write targets of the streaming and tail-flush phases
are exactly `0..N-1` in order, so no row is written twice. -/
theorem transcribeToMIDI_schedule {S : Type}
    (inf : S → List ℚ → S × (List ℚ × List ℚ × List ℚ)) (s0 : S)
    (cqt : ℕ → List ℚ) (N L : ℕ) (hNL : L ≤ N) (prior : PGs) :
    (transcribeToMIDI inf s0 cqt N L prior).2.contours.length = N ∧
    (transcribeToMIDI inf s0 cqt N L prior).2.notes.length = N ∧
    (transcribeToMIDI inf s0 cqt N L prior).2.onsets.length = N ∧
    (∀ r, r < N → ∀ dflt : List ℚ,
      (transcribeToMIDI inf s0 cqt N L prior).2.contours.getD r dflt =
          (callOut inf s0 cqt N L (r + 2 * L)).1 ∧
      (transcribeToMIDI inf s0 cqt N L prior).2.notes.getD r dflt =
          (callOut inf s0 cqt N L (r + 2 * L)).2.1 ∧
      (transcribeToMIDI inf s0 cqt N L prior).2.onsets.getD r dflt =
          (callOut inf s0 cqt N L (r + 2 * L)).2.2) ∧
    (∀ r, r < N → schedInput cqt N L (r + 2 * L) =
        if r + L < N then cqt (r + L) else zeroStackedCqt) ∧
    ((List.range' L (N - L)).map (fun f => f - L) ++
        (List.range' N L).map (fun f => f - L) = List.range N) := by
  set p0 : PGs :=
    ⟨resizePG prior.contours N NUM_FREQ_IN,
      resizePG prior.notes N NUM_FREQ_OUT,
      resizePG prior.onsets N NUM_FREQ_OUT⟩ with hp0
  set sp1 := runPhase inf (fun _ => zeroStackedCqt) (fun _ => 0) (List.range L) (s0, p0)
    with hsp1
  set sp2 := runPhase inf cqt (fun _ => 0) (List.range L) sp1 with hsp2
  set sp3 := runPhase inf cqt (fun f => f - L) (List.range' L (N - L)) sp2 with hsp3
  have htr : transcribeToMIDI inf s0 cqt N L prior =
      runPhase inf (fun _ => zeroStackedCqt) (fun f => f - L) (List.range' N L) sp3 := rfl
  -- posteriorgram lengths are preserved by every phase
  have hp0len : p0.contours.length = N ∧ p0.notes.length = N ∧ p0.onsets.length = N := by
    refine ⟨?_, ?_, ?_⟩ <;> simp [hp0, resizePG_length]
  have hlen1 := runPhase_lengths inf (fun _ => zeroStackedCqt) (fun _ => 0) (List.range L)
    (s0, p0)
  have hlen2 := runPhase_lengths inf cqt (fun _ => 0) (List.range L) sp1
  have hlen3 := runPhase_lengths inf cqt (fun f => f - L) (List.range' L (N - L)) sp2
  have hlen4 := runPhase_lengths inf (fun _ => zeroStackedCqt) (fun f => f - L)
    (List.range' N L) sp3
  have hsp3len : sp3.2.contours.length = N ∧ sp3.2.notes.length = N ∧
      sp3.2.onsets.length = N := by
    rw [hsp3, hsp2, hsp1]
    refine ⟨?_, ?_, ?_⟩
    · rw [hlen3.1, hlen2.1, hlen1.1]; exact hp0len.1
    · rw [hlen3.2.1, hlen2.2.1, hlen1.2.1]; exact hp0len.2.1
    · rw [hlen3.2.2, hlen2.2.2, hlen1.2.2]; exact hp0len.2.2
  have hsp2len : sp2.2.contours.length = N ∧ sp2.2.notes.length = N ∧
      sp2.2.onsets.length = N := by
    rw [hsp2, hsp1]
    refine ⟨?_, ?_, ?_⟩
    · rw [hlen2.1, hlen1.1]; exact hp0len.1
    · rw [hlen2.2.1, hlen1.2.1]; exact hp0len.2.1
    · rw [hlen2.2.2, hlen1.2.2]; exact hp0len.2.2
  -- state threading: after the two warmups the CNN state is callState 2L
  have hst1 : sp1.1 = callState inf s0 cqt N L L := by
    rw [hsp1, List.range_eq_range']
    have h := runPhase_state inf (fun _ => zeroStackedCqt) (fun _ => 0) cqt N L 0 s0 L 0 p0
      (fun f hf1 hf2 => by
        unfold schedInput
        rw [if_pos (by omega)])
    rw [show (0 : ℕ) + L + 0 = L from by omega] at h
    rw [show callState inf s0 cqt N L (0 + 0) = s0 from rfl] at h
    exact h
  have hst2 : sp2.1 = callState inf s0 cqt N L (2 * L) := by
    rw [hsp2, List.range_eq_range']
    have heq : sp1 = (callState inf s0 cqt N L (0 + L), sp1.2) := by
      rw [Nat.zero_add, ← hst1]
    rw [heq]
    have h := runPhase_state inf cqt (fun _ => 0) cqt N L L s0 L 0 sp1.2
      (fun f hf1 hf2 => by
        unfold schedInput
        rw [if_neg (by omega), if_pos (by omega)]
        congr 1
        omega)
    rw [show (0 : ℕ) + L + L = 2 * L from by omega] at h
    exact h
  -- streaming rows
  have hrows3 := runPhase_rows inf cqt cqt N L s0 (N - L) L sp2.2 le_rfl (by omega)
    hsp2len.1 hsp2len.2.1 hsp2len.2.2
    (fun f hf1 hf2 => by
      unfold schedInput
      rw [if_neg (by omega), if_pos (by omega)]
      congr 1
      omega)
  have hsp3eq : sp3 = runPhase inf cqt (fun f => f - L) (List.range' L (N - L))
      (callState inf s0 cqt N L (L + L), sp2.2) := by
    rw [show L + L = 2 * L from by omega, ← hst2, hsp3]
  -- state after streaming
  have hst3 : sp3.1 = callState inf s0 cqt N L (N + L) := by
    rw [hsp3eq]
    have h := runPhase_state inf cqt (fun f => f - L) cqt N L L s0 (N - L) L sp2.2
      (fun f hf1 hf2 => by
        unfold schedInput
        rw [if_neg (by omega), if_pos (by omega)]
        congr 1
        omega)
    rw [show L + (N - L) + L = N + L from by omega] at h
    exact h
  -- tail rows
  have hrows4 := runPhase_rows inf (fun _ => zeroStackedCqt) cqt N L s0 L N sp3.2
    (by omega) (by omega) hsp3len.1 hsp3len.2.1 hsp3len.2.2
    (fun f hf1 hf2 => by
      unfold schedInput
      rw [if_neg (by omega), if_neg (by omega)])
  have htr2 : transcribeToMIDI inf s0 cqt N L prior =
      runPhase inf (fun _ => zeroStackedCqt) (fun f => f - L) (List.range' N L)
        (callState inf s0 cqt N L (N + L), sp3.2) := by
    have hpair : (callState inf s0 cqt N L (N + L), sp3.2) = sp3 := by
      rw [← hst3]
    rw [htr, hpair]
  refine ⟨?_, ?_, ?_, ?_, ?_, streamTail_targets N L hNL⟩
  · rw [htr]; rw [hlen4.1]; exact hsp3len.1
  · rw [htr]; rw [hlen4.2.1]; exact hsp3len.2.1
  · rw [htr]; rw [hlen4.2.2]; exact hsp3len.2.2
  · intro r hr dflt
    have h4 := hrows4 r dflt
    have h3 := hrows3 r dflt
    rw [htr2]
    by_cases hcase : N - L ≤ r
    · refine ⟨?_, ?_, ?_⟩
      · rw [h4.1, if_pos (by omega)]
      · rw [h4.2.1, if_pos (by omega)]
      · rw [h4.2.2, if_pos (by omega)]
    · have hsp3r : sp3 = runPhase inf cqt (fun f => f - L) (List.range' L (N - L))
          (callState inf s0 cqt N L (L + L), sp2.2) := hsp3eq
      refine ⟨?_, ?_, ?_⟩
      · rw [h4.1, if_neg (by omega), hsp3r, h3.1, if_pos (by omega)]
      · rw [h4.2.1, if_neg (by omega), hsp3r, h3.2.1, if_pos (by omega)]
      · rw [h4.2.2, if_neg (by omega), hsp3r, h3.2.2, if_pos (by omega)]
  · intro r hr
    unfold schedInput
    by_cases hrl : r + L < N
    · rw [if_neg (by omega), if_pos (by omega), if_pos hrl]
      congr 1
      omega
    · rw [if_neg (by omega), if_neg (by omega), if_neg hrl]

/-- Witness for `transcribeToMIDI_schedule`: a counting CNN stub (state = call
count, outputs = the call count as a one-entry row), 3 frames, lookahead 1,
empty prior posteriorgrams. -/
theorem transcribeToMIDI_schedule_witness :
    (1 : ℕ) ≤ 3 ∧
    ((transcribeToMIDI (fun (s : ℕ) (_ : List ℚ) => (s + 1, ([(s : ℚ)], [(s : ℚ)], [(s : ℚ)])))
        0 (fun f => [(f : ℚ)]) 3 1 ⟨[], [], []⟩).2.contours.length = 3 ∧
      (transcribeToMIDI (fun (s : ℕ) (_ : List ℚ) => (s + 1, ([(s : ℚ)], [(s : ℚ)], [(s : ℚ)])))
        0 (fun f => [(f : ℚ)]) 3 1 ⟨[], [], []⟩).2.notes.length = 3 ∧
      (transcribeToMIDI (fun (s : ℕ) (_ : List ℚ) => (s + 1, ([(s : ℚ)], [(s : ℚ)], [(s : ℚ)])))
        0 (fun f => [(f : ℚ)]) 3 1 ⟨[], [], []⟩).2.onsets.length = 3 ∧
      (∀ r, r < 3 → ∀ dflt : List ℚ,
        (transcribeToMIDI (fun (s : ℕ) (_ : List ℚ) =>
            (s + 1, ([(s : ℚ)], [(s : ℚ)], [(s : ℚ)])))
          0 (fun f => [(f : ℚ)]) 3 1 ⟨[], [], []⟩).2.contours.getD r dflt =
            (callOut (fun (s : ℕ) (_ : List ℚ) => (s + 1, ([(s : ℚ)], [(s : ℚ)], [(s : ℚ)])))
              0 (fun f => [(f : ℚ)]) 3 1 (r + 2 * 1)).1 ∧
        (transcribeToMIDI (fun (s : ℕ) (_ : List ℚ) =>
            (s + 1, ([(s : ℚ)], [(s : ℚ)], [(s : ℚ)])))
          0 (fun f => [(f : ℚ)]) 3 1 ⟨[], [], []⟩).2.notes.getD r dflt =
            (callOut (fun (s : ℕ) (_ : List ℚ) => (s + 1, ([(s : ℚ)], [(s : ℚ)], [(s : ℚ)])))
              0 (fun f => [(f : ℚ)]) 3 1 (r + 2 * 1)).2.1 ∧
        (transcribeToMIDI (fun (s : ℕ) (_ : List ℚ) =>
            (s + 1, ([(s : ℚ)], [(s : ℚ)], [(s : ℚ)])))
          0 (fun f => [(f : ℚ)]) 3 1 ⟨[], [], []⟩).2.onsets.getD r dflt =
            (callOut (fun (s : ℕ) (_ : List ℚ) => (s + 1, ([(s : ℚ)], [(s : ℚ)], [(s : ℚ)])))
              0 (fun f => [(f : ℚ)]) 3 1 (r + 2 * 1)).2.2) ∧
      (∀ r, r < 3 → schedInput (fun f => [(f : ℚ)]) 3 1 (r + 2 * 1) =
          if r + 1 < 3 then [((r + 1 : ℕ) : ℚ)] else zeroStackedCqt) ∧
      ((List.range' 1 (3 - 1)).map (fun f => f - 1) ++
          (List.range' 3 1).map (fun f => f - 1) = List.range 3)) :=
  ⟨by decide,
    transcribeToMIDI_schedule (fun (s : ℕ) (_ : List ℚ) =>
        (s + 1, ([(s : ℚ)], [(s : ℚ)], [(s : ℚ)])))
      0 (fun f => [(f : ℚ)]) 3 1 (by decide) ⟨[], [], []⟩⟩

/-! ## Claim C9: the GH_NEURALNOTE_CPP_DIAG flag is a pure side channel -/

/-- `computeHeartbeatEvery` (BasicPitch.cpp lines 10-19). -/
def computeHeartbeatEvery (totalFrames : ℕ) : ℕ :=
  if totalFrames ≤ 120 then 8
  else if totalFrames ≤ 600 then 20
  else if 30 < totalFrames / 24 then totalFrames / 24 else 30

/-- `NeuralNoteDiag::emit` (Utils.h lines 91-117): appends one JSON line to
stdout when the cached `GH_NEURALNOTE_CPP_DIAG` flag is set, otherwise does
nothing.  Log entries are modelled by their event names; the elapsed-ms /
detail / progress payload carries no information the pipeline reads back. -/
def emitDiag (flag : Bool) (log : List String) (event : String) : List String :=
  if flag then log ++ [event] else log

/-- One posteriorgram-writing loop of `transcribeToMIDI` with its frame
heartbeats (`emitFrameHeartbeat`, BasicPitch.cpp lines 21-33): when the
caller's per-frame condition `hb f` holds, a pre and a post heartbeat line are
emitted (each internally guarded by the flag); the CNN step and the row write
are exactly those of `runPhase`. -/
def runPhaseDiag {S : Type} (flag : Bool)
    (inf : S → List ℚ → S × (List ℚ × List ℚ × List ℚ))
    (inp : ℕ → List ℚ) (tgt : ℕ → ℕ) (hb : ℕ → Bool) (preName postName : String)
    (frames : List ℕ) (spl : (S × PGs) × List String) : (S × PGs) × List String :=
  frames.foldl (fun spl f =>
    let log1 := if hb f then emitDiag flag spl.2 preName else spl.2
    let log2 := if hb f then emitDiag flag log1 postName else log1
    (((inf spl.1.1 (inp f)).1, setRow spl.1.2 (tgt f) (inf spl.1.1 (inp f)).2), log2)) spl

/-- `BasicPitch::transcribeToMIDI` (BasicPitch.cpp lines 80-185) with its
diagnostic emissions: the same four-phase schedule as `transcribeToMIDI`,
plus the top-level `NeuralNoteDiag::emit` calls and per-frame heartbeats,
all guarded by the flag.  The returned pair is (functional result, emitted
log). -/
def transcribeToMIDIDiag {S : Type} (flag : Bool)
    (inf : S → List ℚ → S × (List ℚ × List ℚ × List ℚ)) (s0 : S)
    (cqt : ℕ → List ℚ) (N L : ℕ) (prior : PGs) : (S × PGs) × List String :=
  let he := computeHeartbeatEvery N
  let total := if L < N then N - L else 0
  let log7 := emitDiag flag (emitDiag flag (emitDiag flag (emitDiag flag (emitDiag flag
    (emitDiag flag (emitDiag flag (emitDiag flag [] "transcribe_start") "features_start")
      "features_done") "buffers_resize_start") "buffers_resize_done") "cnn_reset_done")
    "inference_setup") "warmup_zero_start"
  let r1 := runPhaseDiag flag inf (fun _ => zeroStackedCqt) (fun _ => 0)
    (fun i => i == 0 || i + 1 == L) "warmup_zero_pre" "warmup_zero_post" (List.range L)
    ((s0,
      ⟨resizePG prior.contours N NUM_FREQ_IN,
        resizePG prior.notes N NUM_FREQ_OUT,
        resizePG prior.onsets N NUM_FREQ_OUT⟩), log7)
  let r2 := runPhaseDiag flag inf cqt (fun _ => 0)
    (fun f => f == 0 || f + 1 == L) "warmup_cqt_pre" "warmup_cqt_post" (List.range L)
    (r1.1, emitDiag flag (emitDiag flag r1.2 "warmup_zero_done") "warmup_cqt_start")
  let r3 := runPhaseDiag flag inf cqt (fun f => f - L)
    (fun f => f - L + 1 == 1 || f - L + 1 == total ||
      (0 < he && (f - L + 1) % he == 0))
    "stream_inference_pre" "stream_inference_post" (List.range' L (N - L))
    (r2.1, emitDiag flag (emitDiag flag r2.2 "warmup_cqt_done") "stream_inference_start")
  let r4 := runPhaseDiag flag inf (fun _ => zeroStackedCqt) (fun f => f - L)
    (fun f => f - N + 1 == 1 || f - N + 1 == L) "tail_flush_pre" "tail_flush_post"
    (List.range' N L)
    (r3.1, emitDiag flag (emitDiag flag r3.2 "stream_inference_done") "tail_flush_start")
  (r4.1, emitDiag flag (emitDiag flag (emitDiag flag r4.2 "tail_flush_done")
    "notes_convert_start") "notes_convert_done")

lemma runPhaseDiag_fst {S : Type} (flag : Bool)
    (inf : S → List ℚ → S × (List ℚ × List ℚ × List ℚ))
    (inp : ℕ → List ℚ) (tgt : ℕ → ℕ) (hb : ℕ → Bool) (preName postName : String) :
    ∀ (frames : List ℕ) (spl : (S × PGs) × List String),
      (runPhaseDiag flag inf inp tgt hb preName postName frames spl).1 =
        runPhase inf inp tgt frames spl.1 := by
  intro frames
  induction frames with
  | nil => intro spl; rfl
  | cons f tl ih =>
    intro spl
    unfold runPhaseDiag runPhase
    rw [List.foldl_cons, List.foldl_cons]
    exact ih _

lemma emitDiag_false (log : List String) (event : String) :
    emitDiag false log event = log := rfl

lemma runPhaseDiag_log_false {S : Type}
    (inf : S → List ℚ → S × (List ℚ × List ℚ × List ℚ))
    (inp : ℕ → List ℚ) (tgt : ℕ → ℕ) (hb : ℕ → Bool) (preName postName : String) :
    ∀ (frames : List ℕ) (spl : (S × PGs) × List String),
      (runPhaseDiag false inf inp tgt hb preName postName frames spl).2 = spl.2 := by
  intro frames
  induction frames with
  | nil => intro spl; rfl
  | cons f tl ih =>
    intro spl
    unfold runPhaseDiag
    rw [List.foldl_cons]
    have h := ih (((inf spl.1.1 (inp f)).1,
      setRow spl.1.2 (tgt f) (inf spl.1.1 (inp f)).2),
      (if hb f then emitDiag false (if hb f then emitDiag false spl.2 preName else spl.2)
        postName else (if hb f then emitDiag false spl.2 preName else spl.2)))
    unfold runPhaseDiag at h
    rw [h]
    simp only [emitDiag_false]
    split <;> rfl

/-- C9: the diagnostics flag is a pure side channel of the transcription
driver — the functional result (final CNN state and all three posteriorgrams)
is identical whether `GH_NEURALNOTE_CPP_DIAG` is set or not, equals that of
the log-free driver, and with the flag off no diagnostic line is emitted (so
any downstream consumer of the posteriorgrams — note conversion, tempo
estimation, the output JSON — receives identical input). -/
theorem transcribeToMIDIDiag_flag_independent {S : Type}
    (inf : S → List ℚ → S × (List ℚ × List ℚ × List ℚ)) (s0 : S)
    (cqt : ℕ → List ℚ) (N L : ℕ) (prior : PGs) :
    (transcribeToMIDIDiag true inf s0 cqt N L prior).1 =
      (transcribeToMIDIDiag false inf s0 cqt N L prior).1 ∧
    (transcribeToMIDIDiag false inf s0 cqt N L prior).1 =
      transcribeToMIDI inf s0 cqt N L prior ∧
    (transcribeToMIDIDiag false inf s0 cqt N L prior).2 = [] := by
  refine ⟨?_, ?_, ?_⟩
  · show (transcribeToMIDIDiag true inf s0 cqt N L prior).1 = _
    unfold transcribeToMIDIDiag
    simp only [runPhaseDiag_fst, emitDiag_false]
  · unfold transcribeToMIDIDiag transcribeToMIDI
    simp only [runPhaseDiag_fst, emitDiag_false]
  · unfold transcribeToMIDIDiag
    simp only [runPhaseDiag_log_false, emitDiag_false]

/-- Witness for `localTempoStage_invariants` at a concrete two-window
posterior. -/
theorem localTempoStage_invariants_witness :
    (∀ p ∈ localTempoStage [[(1 : ℚ), 2], [(5 : ℚ)]],
        kTempoMinBpm ≤ p.bpm ∧ p.bpm ≤ kTempoMaxBpm) ∧
    (localTempoStage [[(1 : ℚ), 2], [(5 : ℚ)]]).Pairwise
      (fun a b => a.timeSeconds < b.timeSeconds) ∧
    (localTempoStage [[(1 : ℚ), 2], [(5 : ℚ)]]).Chain' tempoAccept :=
  localTempoStage_invariants [[(1 : ℚ), 2], [(5 : ℚ)]]

/-- Witness for `transcribeToMIDIDiag_flag_independent` at a concrete counting
CNN stub with 2 frames and lookahead 1. -/
theorem transcribeToMIDIDiag_flag_independent_witness :
    (transcribeToMIDIDiag true (fun (s : ℕ) (_ : List ℚ) =>
        (s + 1, ([(s : ℚ)], [(s : ℚ)], [(s : ℚ)]))) 0 (fun f => [(f : ℚ)]) 2 1
      ⟨[], [], []⟩).1 =
      (transcribeToMIDIDiag false (fun (s : ℕ) (_ : List ℚ) =>
          (s + 1, ([(s : ℚ)], [(s : ℚ)], [(s : ℚ)]))) 0 (fun f => [(f : ℚ)]) 2 1
        ⟨[], [], []⟩).1 ∧
    (transcribeToMIDIDiag false (fun (s : ℕ) (_ : List ℚ) =>
        (s + 1, ([(s : ℚ)], [(s : ℚ)], [(s : ℚ)]))) 0 (fun f => [(f : ℚ)]) 2 1
      ⟨[], [], []⟩).1 =
      transcribeToMIDI (fun (s : ℕ) (_ : List ℚ) =>
        (s + 1, ([(s : ℚ)], [(s : ℚ)], [(s : ℚ)]))) 0 (fun f => [(f : ℚ)]) 2 1
        ⟨[], [], []⟩ ∧
    (transcribeToMIDIDiag false (fun (s : ℕ) (_ : List ℚ) =>
        (s + 1, ([(s : ℚ)], [(s : ℚ)], [(s : ℚ)]))) 0 (fun f => [(f : ℚ)]) 2 1
      ⟨[], [], []⟩).2 = [] :=
  transcribeToMIDIDiag_flag_independent (fun (s : ℕ) (_ : List ℚ) =>
    (s + 1, ([(s : ℚ)], [(s : ℚ)], [(s : ℚ)]))) 0 (fun f => [(f : ℚ)]) 2 1 ⟨[], [], []⟩

end GuitarHelio
